import Mathlib

set_option linter.unusedVariables false

/-! Verification of the DRG grouper (src/src/main.rs).

Shallow embedding conventions:
* Strings are ASCII ICD / ADRG codes, so Rust byte slices coincide with
  character slices (`rustSlice`).
* Rust `HashSet<String>` is modelled as `List String`: membership and
  disjointness of the model agree with the set semantics of the source.
* Rust `HashMap<K, V>` is modelled as an association list `List (K × V)`
  queried with `List.lookup`; `HashMap::collect`'s replace-on-duplicate
  behaviour is modelled by `hmInsert`.
* Every source operation that can panic (`map[key]`, `vec[i]`, `.unwrap()`,
  byte slicing) is modelled in the `Option` monad: `none` is a panic.
* The `f64` age is modelled as an exact rational; every comparison the
  source performs (`age <= 0.0795` against the inputs named by the spec)
  is far from any binary rounding boundary, so the rational model and the
  `f64` source agree on them. -/

-- Case record: struct DrgCase and its impl (main.rs lines 94-171) ------------

structure DrgCase where
  id : String
  main_dis : String
  main_opt : String
  other_dis : List String
  other_opt : List String
  sex : Int
  age : ℚ
  weight : Int
  all_dis : List String
  all_opt : List String

/-- Constructor `DrgCase::new`: `all_dis`/`all_opt` are built from
`other_* ++ [principal]` (the source pushes the principal code onto a clone
of the list and collects into a `HashSet`, with no emptiness check). -/
def DrgCase.new (admission_number principal_diagnosis principal_operation : String)
    (other_diagnosis other_operation : List String)
    (gender : Int) (old : ℚ) (mass : Int) : DrgCase :=
  { id := admission_number
    main_dis := principal_diagnosis
    main_opt := principal_operation
    other_dis := other_diagnosis
    other_opt := other_operation
    sex := gender
    age := old
    weight := mass
    all_dis := other_diagnosis ++ [principal_diagnosis]
    all_opt := other_operation ++ [principal_operation] }

def DrgCase.no_main_diagnosis (c : DrgCase) : Bool := c.main_dis == ""

def DrgCase.no_surgery (c : DrgCase) : Bool := c.main_opt == ""

/-- Membership of the principal procedure in the global procedure set
(the parameter name `all_dis_list` is the source's own misnomer; `qy_judge`
passes the global procedure list here). -/
def DrgCase.is_vaild_surgrey (c : DrgCase) (all_dis_list : List String) : Bool :=
  all_dis_list.contains c.main_opt

-- Panic-aware primitives -----------------------------------------------------

/-- `HashSet::is_disjoint`: no common element. -/
def hsDisjoint (a b : List String) : Bool := a.all (fun x => !(b.contains x))

/-- Rust byte-range slice `s[a..=b]` on ASCII strings; `none` models the
out-of-range panic. -/
def rustSlice (s : String) (a b : Nat) : Option String :=
  if b + 1 ≤ s.length then some (String.mk ((s.toList.drop a).take (b + 1 - a)))
  else none

/-- Rust short-circuit `&&` under the panic monad. -/
def rAnd (x y : Option Bool) : Option Bool := do
  let a ← x
  if a then y else pure false

/-- Rust short-circuit `||` under the panic monad. -/
def rOr (x y : Option Bool) : Option Bool := do
  let a ← x
  if a then pure true else y

/-- Rust `m[k].contains(&v)`; panics (`none`) when the key is absent. -/
def memM (m : List (String × List String)) (k v : String) : Option Bool := do
  let s ← m.lookup k
  pure (s.contains v)

/-- Rust `!m[k].is_disjoint(&xs)`; panics (`none`) when the key is absent. -/
def interM (m : List (String × List String)) (k : String) (xs : List String) : Option Bool := do
  let s ← m.lookup k
  pure (!hsDisjoint s xs)

/-- The common tail of every rule predicate:
`if cond { adrg_name } else { "KBBZ" }`. -/
def toGroup (adrg_name : String) (c : Option Bool) : Option String := do
  let b ← c
  pure (if b then adrg_name else "KBBZ")

-- ADRG rule-type predicates (main.rs lines 442-874) ---------------------------

def is_contain_main_opt (record : DrgCase) (adrg_dis_opt : List (String × List String))
    (adrg_name : String) : Option String :=
  if record.no_surgery then some "KBBZ"
  else toGroup adrg_name (memM adrg_dis_opt adrg_name record.main_opt)

def is_contain_opt_simultaneously (record : DrgCase) (adrg_dis_opt : List (String × List String))
    (adrg_name : String) : Option String :=
  if record.no_surgery then some "KBBZ"
  else toGroup adrg_name
    (rAnd (interM adrg_dis_opt (adrg_name ++ "_normal_list") record.all_opt)
          (interM adrg_dis_opt (adrg_name ++ "_other_list") record.all_opt))

def is_contain_other_dis_or_other_opt1_and_other_opt2 (record : DrgCase)
    (adrg_dis_opt : List (String × List String)) (adrg_name : String) : Option String :=
  if record.no_surgery then some "KBBZ"
  else toGroup adrg_name
    (rAnd (rOr (interM adrg_dis_opt (adrg_name ++ "_other_dis_list") record.other_dis)
               (interM adrg_dis_opt (adrg_name ++ "_other_opt_list1") record.all_opt))
          (interM adrg_dis_opt (adrg_name ++ "_other_opt_list2") record.all_opt))

def is_contain_main_dis_and_main_opt_simultaneously (record : DrgCase)
    (adrg_dis_opt : List (String × List String)) (adrg_name : String) : Option String :=
  if record.no_surgery then some "KBBZ"
  else toGroup adrg_name
    (rAnd (memM adrg_dis_opt (adrg_name ++ "_contain_main_dis_list") record.main_dis)
          (memM adrg_dis_opt (adrg_name ++ "_contain_main_opt_list") record.main_opt))

def is_contain_main_dis (record : DrgCase) (adrg_dis_opt : List (String × List String))
    (adrg_name : String) : Option String :=
  toGroup adrg_name (memM adrg_dis_opt adrg_name record.main_dis)

def is_contain_cb4_opt_and_cb5_opt (record : DrgCase)
    (adrg_dis_opt : List (String × List String)) (adrg_name : String) : Option String :=
  if record.no_surgery then some "KBBZ"
  else toGroup adrg_name
    (rAnd (interM adrg_dis_opt "CB4" record.all_opt)
          (interM adrg_dis_opt "CB5" record.all_opt))

/-- The source of this predicate also reads the "CB4" and "CB5" slices
(not "CB5"/"CB6" as its name suggests); see main.rs lines 564-579. -/
def is_contain_cb5_opt_and_cb6_opt (record : DrgCase)
    (adrg_dis_opt : List (String × List String)) (adrg_name : String) : Option String :=
  if record.no_surgery then some "KBBZ"
  else toGroup adrg_name
    (rAnd (interM adrg_dis_opt "CB4" record.all_opt)
          (interM adrg_dis_opt "CB5" record.all_opt))

def is_contain_multi_opt1 (record : DrgCase) (adrg_dis_opt : List (String × List String))
    (adrg_name : String) : Option String :=
  if record.no_surgery then some "KBBZ"
  else do
    let b1 ← rAnd (memM adrg_dis_opt (adrg_name ++ "_main_dis_list") record.main_dis)
                  (memM adrg_dis_opt (adrg_name ++ "_main_opt_list1") record.main_opt)
    if b1 then pure adrg_name
    else do
      let b2 ← memM adrg_dis_opt (adrg_name ++ "_main_opt_list2") record.main_opt
      if b2 then pure adrg_name
      else do
        let b3 ← rAnd (interM adrg_dis_opt (adrg_name ++ "_other_opt_list3") record.all_opt)
                      (interM adrg_dis_opt (adrg_name ++ "_other_opt_list4") record.all_opt)
        if b3 then pure adrg_name else pure "KBBZ"

def is_contain_multi_opt2 (record : DrgCase) (adrg_dis_opt : List (String × List String))
    (adrg_name : String) : Option String :=
  if record.no_surgery then some "KBBZ"
  else do
    let b1 ← rAnd (rAnd (memM adrg_dis_opt (adrg_name ++ "_main_dis_list") record.main_dis)
                        (interM adrg_dis_opt (adrg_name ++ "_other_opt_list1") record.all_opt))
                  (interM adrg_dis_opt (adrg_name ++ "_other_opt_list2") record.all_opt)
    if b1 then pure adrg_name
    else do
      let b2 ← rAnd (rAnd (rAnd (memM adrg_dis_opt (adrg_name ++ "_main_dis_list") record.main_dis)
                                (interM adrg_dis_opt (adrg_name ++ "_other_opt_list1") record.all_opt))
                          (interM adrg_dis_opt (adrg_name ++ "_other_opt_list3") record.all_opt))
                    (interM adrg_dis_opt (adrg_name ++ "_other_opt_list4") record.all_opt)
      if b2 then pure adrg_name
      else do
        let b3 ← rAnd (rAnd (memM adrg_dis_opt (adrg_name ++ "_main_dis_list") record.main_dis)
                            (interM adrg_dis_opt (adrg_name ++ "_other_opt_list4") record.all_opt))
                      (interM adrg_dis_opt (adrg_name ++ "_other_opt_list5") record.all_opt)
        if b3 then pure adrg_name else pure "KBBZ"

/-- No no-surgery guard in the source for this rule type; also note the
source builds the key `adrg_name ++ "_other_opt_list2"` for both checks of
its second branch. -/
def is_contain_multi_opt3 (record : DrgCase) (adrg_dis_opt : List (String × List String))
    (adrg_name : String) : Option String := do
  let b1 ← rAnd (memM adrg_dis_opt (adrg_name ++ "_main_dis_list") record.main_dis)
                (memM adrg_dis_opt (adrg_name ++ "_main_opt_list1") record.main_opt)
  if b1 then pure adrg_name
  else do
    let b2 ← rAnd (memM adrg_dis_opt (adrg_name ++ "_main_dis_list") record.main_dis)
                  (rOr (memM adrg_dis_opt (adrg_name ++ "_other_opt_list2") record.main_opt)
                       (interM adrg_dis_opt (adrg_name ++ "_other_opt_list2") record.all_opt))
    if b2 then pure adrg_name else pure "KBBZ"

/-- No no-surgery guard in the source for this rule type. -/
def is_contain_multi_opt4 (record : DrgCase) (adrg_dis_opt : List (String × List String))
    (adrg_name : String) : Option String := do
  let b1 ← rAnd (memM adrg_dis_opt (adrg_name ++ "_main_dis_list1") record.main_dis)
                (memM adrg_dis_opt (adrg_name ++ "_main_opt_list") record.main_opt)
  if b1 then pure adrg_name
  else do
    let b2 ← rAnd (rAnd (memM adrg_dis_opt (adrg_name ++ "_main_dis_list2") record.main_dis)
                        (interM adrg_dis_opt (adrg_name ++ "_other_dis_list") record.other_dis))
                  (memM adrg_dis_opt (adrg_name ++ "_main_opt_list") record.main_opt)
    if b2 then pure adrg_name else pure "KBBZ"

def is_contain_multi_opt5 (record : DrgCase) (adrg_dis_opt : List (String × List String))
    (adrg_name : String) : Option String :=
  if record.no_surgery then some "KBBZ"
  else do
    let b1 ← rAnd (rAnd (memM adrg_dis_opt (adrg_name ++ "_main_dis_list") record.main_dis)
                        (interM adrg_dis_opt (adrg_name ++ "_other_dis_list1") record.other_dis))
                  (memM adrg_dis_opt (adrg_name ++ "_main_opt_list") record.main_opt)
    if b1 then pure adrg_name
    else do
      let b2 ← rAnd (interM adrg_dis_opt (adrg_name ++ "_other_dis_list2") record.other_dis)
                    (memM adrg_dis_opt (adrg_name ++ "_main_opt_list") record.main_opt)
      if b2 then pure adrg_name else pure "KBBZ"

/-- The source concatenates with no separating underscore:
`adrg_name + "WB1_main_opt_list"` etc. -/
def is_contain_multi_wb_opt (record : DrgCase) (adrg_dis_opt : List (String × List String))
    (adrg_name : String) : Option String :=
  if record.no_surgery then some "KBBZ"
  else toGroup adrg_name
    (rOr (rOr (memM adrg_dis_opt (adrg_name ++ "WB1_main_opt_list") record.main_opt)
              (memM adrg_dis_opt (adrg_name ++ "WB2_main_opt_list") record.main_opt))
         (memM adrg_dis_opt (adrg_name ++ "WB3_main_opt_list") record.main_opt))

def is_contain_other_dis (record : DrgCase) (adrg_dis_opt : List (String × List String))
    (adrg_name : String) : Option String :=
  toGroup adrg_name (interM adrg_dis_opt adrg_name record.other_dis)

def is_contain_dis (record : DrgCase) (adrg_dis_opt : List (String × List String))
    (adrg_name : String) : Option String :=
  toGroup adrg_name
    (rAnd (memM adrg_dis_opt adrg_name record.main_dis)
          (interM adrg_dis_opt adrg_name record.other_dis))

def is_contain_all_opt (record : DrgCase) (all_opt : List String)
    (adrg_name : String) : Option String :=
  if record.no_surgery then some "KBBZ"
  else some (if !hsDisjoint all_opt record.all_opt then adrg_name else "KBBZ")

def is_contain_dis_and_main_opt (record : DrgCase) (adrg_dis_opt : List (String × List String))
    (adrg_name : String) : Option String :=
  toGroup adrg_name
    (rAnd (interM adrg_dis_opt (adrg_name ++ "_main_dis_list") record.all_dis)
          (memM adrg_dis_opt (adrg_name ++ "_main_opt_list") record.main_opt))

def mdczRegions : List String :=
  ["belly_dis_sheet", "body_spine_dis_sheet", "chest_dis_sheet", "down_limb_dis_sheet",
   "genital_dis_sheet", "head_neck_dis_sheet", "pelvis_dis_sheet", "up_limb_dis_sheet",
   "urinary_dis_sheet"]

/-- The region-counting loop of `is_mdcz_dis`; each table index can panic. -/
def countRegions (m : List (String × List String)) (dis : List String) :
    List String → Option Nat
  | [] => some 0
  | k :: ks => do
      let s ← m.lookup k
      let n ← countRegions m dis ks
      pure (if !hsDisjoint s dis then n + 1 else n)

def is_mdcz_dis (record : DrgCase) (mdcz_dis_opt : List (String × List String))
    (adrg_name : String) : Option String := do
  let counter ← countRegions mdcz_dis_opt record.all_dis mdczRegions
  pure (if counter > 1 then adrg_name else "KBBZ")

-- Rule-type dispatch: fn process_adrg (main.rs lines 940-982) -----------------

def process_adrg (record : DrgCase) (adrg_dis_opt : List (String × List String))
    (all_opt_list : List String) (adrg_type_dict : List (String × String))
    (adrg_name : String) : Option String := do
  let t ← adrg_type_dict.lookup adrg_name
  match t with
  | "is_contain_main_dis" => is_contain_main_dis record adrg_dis_opt adrg_name
  | "is_contain_main_opt" => is_contain_main_opt record adrg_dis_opt adrg_name
  | "is_contain_main_dis_and_main_opt_simultaneously" =>
      is_contain_main_dis_and_main_opt_simultaneously record adrg_dis_opt adrg_name
  | "is_contain_dis" => is_contain_dis record adrg_dis_opt adrg_name
  | "is_contain_opt_simultaneously" => is_contain_opt_simultaneously record adrg_dis_opt adrg_name
  | "is_contain_all_opt" => is_contain_all_opt record all_opt_list adrg_name
  | "is_contain_multi_opt3" => is_contain_multi_opt3 record adrg_dis_opt adrg_name
  | "is_contain_other_dis" => is_contain_other_dis record adrg_dis_opt adrg_name
  | "is_contain_multi_opt5" => is_contain_multi_opt5 record adrg_dis_opt adrg_name
  | "is_contain_other_dis_or_other_opt1_and_other_opt2" =>
      is_contain_other_dis_or_other_opt1_and_other_opt2 record adrg_dis_opt adrg_name
  | "is_contain_cb4_opt_and_cb5_opt" =>
      is_contain_cb4_opt_and_cb5_opt record adrg_dis_opt adrg_name
  | "is_contain_cb5_opt_and_cb6_opt" =>
      is_contain_cb5_opt_and_cb6_opt record adrg_dis_opt adrg_name
  | "is_contain_multi_opt1" => is_contain_multi_opt1 record adrg_dis_opt adrg_name
  | "is_contain_multi_opt2" => is_contain_multi_opt2 record adrg_dis_opt adrg_name
  | "is_contain_multi_opt4" => is_contain_multi_opt4 record adrg_dis_opt adrg_name
  | "is_dis_and_main_opt" => is_contain_dis_and_main_opt record adrg_dis_opt adrg_name
  | "is_contain_multi_wb_opt" => is_contain_multi_wb_opt record adrg_dis_opt adrg_name
  | "is_mdcz_dis" => is_mdcz_dis record adrg_dis_opt adrg_name
  | _ => some "KBBZ"

-- MDC-level checks (main.rs lines 320-440) ------------------------------------

def mdcaAdrgList : List String :=
  ["AA1", "AA2", "AB1", "AC1", "AD1", "AE1", "AF1", "AG1", "AG2", "AG3", "AH1", "AH2"]

/-- The candidate loop shared by `is_mdca` and `which_adrg`:
`pred` starts at the given value, is overwritten by each `process_adrg`
result, and the loop breaks at the first non-"KBBZ" result. -/
def tryAdrgs (f : String → Option String) : String → List String → Option String
  | pred, [] => some pred
  | _pred, cate :: rest => do
      let p ← f cate
      if p ≠ "KBBZ" then some p else tryAdrgs f p rest

def is_mdca (record : DrgCase) (adrg_dis_opt : List (String × List String))
    (all_opt_list : List String) (adrg_type_dict : List (String × String))
    (mdc_name : String) : Option String :=
  if record.no_surgery then some "KBBZ"
  else tryAdrgs (process_adrg record adrg_dis_opt all_opt_list adrg_type_dict)
        "KBBZ" mdcaAdrgList

def is_mdcz (record : DrgCase) (adrg_dis_opt : List (String × List String))
    (all_opt_list : List String) (adrg_type_dict : List (String × String))
    (mdcz_dis_sheet : List (String × List String)) (mdc_name : String) : Option String := do
  let pred ← is_mdcz_dis record mdcz_dis_sheet "ZZ1"
  pure (if pred = "ZZ1" then "MDCZ" else "KBBZ")

/-- The source's f64 literal `0.0795`, as the rational 159/2000 in lowest
terms (written with `Rat.mk'` so that comparisons against it are kernel
computable; `ageCutoff_eq` checks it is the decimal 0.0795). -/
def ageCutoff : ℚ := Rat.mk' 159 2000

theorem ageCutoff_eq : ageCutoff = 0.0795 := by
  norm_num [ageCutoff, Rat.mk'_eq_divInt, Rat.divInt_eq_div]

/-- Neonate check: the source compares `record.age <= 0.0795` (its comment
notes 29 / 365 ≈ 0.0795); there is no diagnosis-table check. -/
def is_mdcp (record : DrgCase) (main_dis_sheet : List (String × List String))
    (mdc_name : String) : String :=
  if record.age ≤ ageCutoff then "MDCP" else "KBBZ"

def is_mdcy (record : DrgCase) (adrg_type_dict : List (String × String))
    (mdcy_dis_sheet : List String) (mdc_name : String) : String :=
  if hsDisjoint mdcy_dis_sheet record.all_dis then "KBBZ" else "MDCY"

/-- Sex-restricted check for MDCN: a female case whose first declared
category is "MDCN" yields the string "MDCY" (the Catch-all redirect).
Rust's `&&` short-circuits, so the table is only indexed when `sex == 0`. -/
def is_mdcn (record : DrgCase) (main_dis_sheet : List (String × List String))
    (mdc_name : String) : Option String :=
  if record.sex = 0 then do
    let l ← main_dis_sheet.lookup record.main_dis
    let first ← l.get? 0
    pure (if first = "MDCN" then "MDCY" else "KBBZ")
  else some "KBBZ"

/-- Sex-restricted check for MDCM, symmetric to `is_mdcn` with `sex == 1`. -/
def is_mdcm (record : DrgCase) (main_dis_sheet : List (String × List String))
    (mdc_name : String) : Option String :=
  if record.sex = 1 then do
    let l ← main_dis_sheet.lookup record.main_dis
    let first ← l.get? 0
    pure (if first = "MDCM" then "MDCY" else "KBBZ")
  else some "KBBZ"

-- QY reclassification: fn qy_judge (main.rs lines 1013-1032) ------------------

def internalBand : List String := ["R", "S", "T", "U", "V", "W", "X", "Y", "Z"]

def qy_judge (record : DrgCase) (adrg_name : String) (all_opt_list : List String) :
    Option String :=
  if adrg_name = "KBBZ" then some "KBBZ"
  else if record.is_vaild_surgrey all_opt_list then do
    let second ← rustSlice adrg_name 1 1
    if internalBand.contains second then do
      let first ← rustSlice adrg_name 0 0
      pure (first ++ "QY")
    else pure adrg_name
  else pure adrg_name

-- ADRG resolution walk: fn which_adrg (main.rs lines 1034-1148) ---------------

section Walk

variable (record : DrgCase) (adrg_dis_opt : List (String × List String))
  (all_opt_list : List String) (main_dis_sheet : List (String × List String))
  (adrg_type_dict : List (String × String)) (mdcz_dis_sheet : List (String × List String))
  (mdcy_dis_sheet : List String) (mdc_sub_adrg : List (String × List String))

/-- The category walk of `which_adrg`, carrying the running `pred_adrg`.
Only the MDCA branch breaks out of the walk; every other branch falls
through to the next category, so a later claiming category overwrites the
running result (lines 1063-1145 of the source). The MDCN / MDCM branches
test the `is_mdcn` / `is_mdcm` result against "MDCN" / "MDCM", which those
functions never return. -/
def whichAdrgWalk : String → List String → Option String
  | pred, [] => some pred
  | pred, mdc :: rest =>
    if mdc = "MDCA" then do
      let p ← is_mdca record adrg_dis_opt all_opt_list adrg_type_dict "MDCA"
      if p ≠ "KBBZ" then some p
      else whichAdrgWalk p rest
    else if mdc = "MDCP" then
      if is_mdcp record main_dis_sheet "MDCP" = "MDCP" then do
        let lst ← mdc_sub_adrg.lookup "MDCP"
        let p ← tryAdrgs (process_adrg record adrg_dis_opt all_opt_list adrg_type_dict) pred lst
        whichAdrgWalk p rest
      else whichAdrgWalk pred rest
    else if mdc = "MDCY" then
      if is_mdcy record adrg_type_dict mdcy_dis_sheet "MDCY" = "MDCY" then do
        let lst ← mdc_sub_adrg.lookup "MDCY"
        let p ← tryAdrgs (process_adrg record adrg_dis_opt all_opt_list adrg_type_dict) pred lst
        whichAdrgWalk p rest
      else whichAdrgWalk pred rest
    else if mdc = "MDCZ" then do
      let m ← is_mdcz record adrg_dis_opt all_opt_list adrg_type_dict mdcz_dis_sheet "MDCZ"
      if m = "MDCZ" then do
        let lst ← mdc_sub_adrg.lookup m
        let p ← tryAdrgs (process_adrg record adrg_dis_opt all_opt_list adrg_type_dict) pred lst
        whichAdrgWalk p rest
      else whichAdrgWalk pred rest
    else if mdc = "MDCN" then do
      let m ← is_mdcn record main_dis_sheet "MDCN"
      if m = "MDCN" then do
        let lst ← mdc_sub_adrg.lookup m
        let p ← tryAdrgs (process_adrg record adrg_dis_opt all_opt_list adrg_type_dict) pred lst
        whichAdrgWalk p rest
      else whichAdrgWalk pred rest
    else if mdc = "MDCM" then do
      let m ← is_mdcm record main_dis_sheet "MDCM"
      if m = "MDCM" then do
        let lst ← mdc_sub_adrg.lookup m
        let p ← tryAdrgs (process_adrg record adrg_dis_opt all_opt_list adrg_type_dict) pred lst
        whichAdrgWalk p rest
      else whichAdrgWalk pred rest
    else do
      let lst ← mdc_sub_adrg.lookup mdc
      let p ← tryAdrgs (process_adrg record adrg_dis_opt all_opt_list adrg_type_dict) pred lst
      whichAdrgWalk p rest

end Walk

def preMdc : List String := ["MDCA", "MDCP", "MDCY", "MDCZ"]

def which_adrg (record : DrgCase) (adrg_dis_opt : List (String × List String))
    (all_opt_list : List String) (all_dis_list : List String)
    (main_dis_sheet : List (String × List String)) (adrg_type_dict : List (String × String))
    (mdcz_dis_sheet : List (String × List String)) (mdcy_dis_sheet : List String)
    (mdc_sub_adrg : List (String × List String)) : Option String :=
  if record.no_main_diagnosis then some "KBBZ"
  else do
    let declared ← main_dis_sheet.lookup record.main_dis
    let pred_adrg ← whichAdrgWalk record adrg_dis_opt all_opt_list main_dis_sheet
      adrg_type_dict mdcz_dis_sheet mdcy_dis_sheet mdc_sub_adrg "KBBZ" (preMdc ++ declared)
    qy_judge record pred_adrg all_opt_list

-- DRG refinement: fn process_drg (main.rs lines 1151-1261) --------------------

/-- `HashMap::collect` over key-value pairs: a later pair with the same key
replaces the earlier one; `lookup` and `length` agree with the `HashMap`. -/
def hmInsert (m : List (Nat × String)) (k : Nat) (v : String) : List (Nat × String) :=
  (k, v) :: m.filter (fun p => p.1 != k)

/-- Builds `drg_wait_dict`: maps each DRG code's last character (as a digit)
to the code; `to_digit(10).unwrap()` panics on a non-digit last character
(`unwrap_or_default` turns an empty code into the NUL character first). -/
def buildWaitDict (acc : List (Nat × String)) : List String → Option (List (Nat × String))
  | [] => some acc
  | x :: xs =>
      let c := x.toList.getLast?.getD (Char.ofNat 0)
      if c.isDigit then buildWaitDict (hmInsert acc (c.toNat - 48) x) xs
      else none

/-- The two-code severity loop of `process_drg`: skips an entry whose
component 0 equals the exclusion entry, otherwise records the entry's
component 1 and breaks as soon as that component is "MCC". -/
def excludeLoop (excl : String) : String → List (List String) → Option String
  | label, [] => some label
  | label, c :: rest => do
      let c0 ← c.get? 0
      if c0 = excl then excludeLoop excl label rest
      else do
        let c1 ← c.get? 1
        if c1 = "MCC" then some "MCC" else excludeLoop excl c1 rest

/-- The three-code severity loop of `process_drg`: as `excludeLoop`, except
that for a surviving non-"MCC" entry the source stores component 0 (the
exclusion tag) in `high_ccmcc_label`, not the tier component 1
(main.rs line 1239). -/
def highLoop (excl : String) : String → List (List String) → Option String
  | label, [] => some label
  | label, c :: rest => do
      let c0 ← c.get? 0
      if c0 = excl then highLoop excl label rest
      else do
        let c1 ← c.get? 1
        if c1 = "MCC" then some "MCC"
        else highLoop excl c0 rest

def process_drg (record : DrgCase) (adrg_name : String)
    (ccmcc_sheet : List (String × List String)) (exclude_sheet : List (String × String))
    (adrg_drg_name_sheet : List (String × List String)) : Option String :=
  if adrg_name = "KBBZ" then some adrg_name
  else do
    let qy ← rustSlice adrg_name 1 2
    if qy = "QY" then pure adrg_name
    else do
      let codes ← adrg_drg_name_sheet.lookup adrg_name
      let drg_wait_dict ← buildWaitDict [] codes
      let case_ccmcc := record.other_dis.filterMap (fun x => ccmcc_sheet.lookup x)
      let excl := (exclude_sheet.lookup record.main_dis).getD ""
      if drg_wait_dict.length = 1 then
        drg_wait_dict.lookup 9
      else if drg_wait_dict.length = 2 then
        if case_ccmcc.isEmpty then drg_wait_dict.lookup 5
        else do
          let exclude_label ← excludeLoop excl "exclude" case_ccmcc
          if exclude_label = "MCC" then
            if (drg_wait_dict.lookup 1).isSome then drg_wait_dict.lookup 1
            else drg_wait_dict.lookup 3
          else if exclude_label = "CC" then
            if (drg_wait_dict.lookup 1).isSome then drg_wait_dict.lookup 5
            else drg_wait_dict.lookup 3
          else drg_wait_dict.lookup 5
      else do
        let high_ccmcc_label ← highLoop excl "exclude" case_ccmcc
        if high_ccmcc_label = "MCC" then drg_wait_dict.lookup 1
        else if high_ccmcc_label = "CC" then
          if drg_wait_dict.length = 3 then drg_wait_dict.lookup 3
          else drg_wait_dict.lookup 1
        else drg_wait_dict.lookup 5

-- Concrete instances used by individual claims ---------------------------------

/-- An MDCZ region sheet with all nine region keys present and empty. -/
def mdczEmptySheet : List (String × List String) := mdczRegions.map (fun k => (k, []))

def overwriteCase : DrgCase := DrgCase.new "c1" "D1" "" ["Y9"] [] 1 (Rat.mk' 1 20) 0

def overwriteDisOpt : List (String × List String) := [("PB1", ["D1"]), ("YR1", ["D1"])]

def overwriteTypeDict : List (String × String) :=
  [("PB1", "is_contain_main_dis"), ("YR1", "is_contain_main_dis")]

def overwriteMainDisSheet : List (String × List String) := [("D1", [])]

def overwriteSubAdrg : List (String × List String) := [("MDCP", ["PB1"]), ("MDCY", ["YR1"])]

/-- C1: the claim says the category walk stops at the first claiming
category, so no later category can change the returned ADRG.  In the code
only the MDCA branch breaks out of the walk.  On this input the Neonate
category MDCP (age 1/20 ≤ cutoff) claims the case and resolves it to "PB1"
(first two conjuncts), yet `which_adrg` returns "YR1": the later Catch-all
category MDCY also claims the case (third conjunct) and its candidate
evaluation overwrites the earlier result. -/
theorem which_adrg_later_category_overwrites :
    is_mdcp overwriteCase overwriteMainDisSheet "MDCP" = "MDCP" ∧
    tryAdrgs (process_adrg overwriteCase overwriteDisOpt [] overwriteTypeDict) "KBBZ" ["PB1"]
      = some "PB1" ∧
    is_mdcy overwriteCase overwriteTypeDict ["Y9"] "MDCY" = "MDCY" ∧
    which_adrg overwriteCase overwriteDisOpt [] [] overwriteMainDisSheet overwriteTypeDict
      mdczEmptySheet ["Y9"] overwriteSubAdrg = some "YR1" := by decide

def ccOnlyCase : DrgCase := DrgCase.new "c2" "D1" "" ["C1"] [] 1 (Rat.mk' 20 1) 0

def ccOnlyCcmcc : List (String × List String) := [("C1", ["T2", "CC"])]

def threeCodeSheet : List (String × List String) := [("BR1", ["BR11", "BR13", "BR15"])]

/-- C2: the claim says a three-code ADRG with a qualifying severity of
"minor" (CC) yields the code ending in 3.  Here the only other diagnosis
"C1" is CC-tagged (second conjunct) and not suppressed (the exclusion
table is empty), yet `process_drg` returns the code ending in 5: the
three-code loop of the source stores the entry's exclusion tag (component
0, here "T2") instead of its tier, so the CC tier is never recognised. -/
theorem three_code_cc_case_gets_code5 :
    process_drg ccOnlyCase "BR1" ccOnlyCcmcc [] threeCodeSheet = some "BR15" ∧
    ccOnlyCcmcc.lookup "C1" = some ["T2", "CC"] := by decide

def deadBranchCase : DrgCase := DrgCase.new "c3" "D1" "" [] [] 0 (Rat.mk' 20 1) 0

def deadBranchDisOpt : List (String × List String) := [("YR1", ["D1"])]

def deadBranchTypeDict : List (String × String) := [("YR1", "is_contain_main_dis")]

def deadBranchMainDisSheet : List (String × List String) := [("D1", ["MDCN"])]

def deadBranchSubAdrg : List (String × List String) := [("MDCY", ["YR1"])]

/-- C3: the claim says a female case whose principal-diagnosis entry lists
"MDCN" first is evaluated against the Catch-all (MDCY) candidate list.
`is_mdcn` does return the redirect value "MDCY" (first conjunct) and the
MDCY candidate "YR1" would claim the case (second conjunct), but
`which_adrg` returns "KBBZ": the walk's MDCN branch compares the
`is_mdcn` result against "MDCN", which it never equals, so no candidate
list is evaluated at all. -/
theorem mdcn_redirect_is_dead :
    is_mdcn deadBranchCase deadBranchMainDisSheet "MDCN" = some "MDCY" ∧
    process_adrg deadBranchCase deadBranchDisOpt [] deadBranchTypeDict "YR1" = some "YR1" ∧
    which_adrg deadBranchCase deadBranchDisOpt [] [] deadBranchMainDisSheet deadBranchTypeDict
      mdczEmptySheet [] deadBranchSubAdrg = some "KBBZ" := by decide

def neonateCutoffCase : DrgCase := DrgCase.new "c7" "D1" "" [] [] 1 (Rat.mk' 159 2000) 0

/-- C7 (counterexample): a case with age exactly 0.0795 years is claimed
by the Neonate check even though 0.0795 > 29/365, refuting "claims exactly
when age ≤ 29/365". -/
theorem neonate_cutoff_exceeds_29_365 :
    is_mdcp neonateCutoffCase [] "MDCP" = "MDCP" ∧
    neonateCutoffCase.age = 0.0795 ∧
    ¬ (neonateCutoffCase.age ≤ 29 / 365) := by
  refine ⟨by decide, ?_, ?_⟩
  · norm_num [neonateCutoffCase, DrgCase.new, Rat.mk'_eq_divInt, Rat.divInt_eq_div]
  · norm_num [neonateCutoffCase, DrgCase.new, Rat.mk'_eq_divInt, Rat.divInt_eq_div]

def neonate29of365Case : DrgCase := DrgCase.new "c7a" "D1" "" [] [] 1 (Rat.mk' 29 365) 0

def agePoint08Case : DrgCase := DrgCase.new "c7b" "D1" "" [] [] 1 (Rat.mk' 2 25) 0

/-- C7 (amended): the Neonate check claims a case exactly when its age is
at most 0.0795 (the code's threshold, slightly above 29/365); in
particular age 29/365 is Neonate-eligible and age 0.08 is not. -/
theorem is_mdcp_iff_cutoff :
    (∀ (record : DrgCase) (main_dis_sheet : List (String × List String)) (mdc_name : String),
      is_mdcp record main_dis_sheet mdc_name = "MDCP" ↔ record.age ≤ ageCutoff) ∧
    neonate29of365Case.age = 29 / 365 ∧
    is_mdcp neonate29of365Case [] "MDCP" = "MDCP" ∧
    agePoint08Case.age = 0.08 ∧
    is_mdcp agePoint08Case [] "MDCP" ≠ "MDCP" := by
  refine ⟨fun record main_dis_sheet mdc_name => ?_, ?_, by decide, ?_, by decide⟩
  · constructor
    · intro hmd
      by_contra hc
      unfold is_mdcp at hmd
      rw [if_neg hc] at hmd
      exact absurd hmd (by decide)
    · intro hle
      unfold is_mdcp
      rw [if_pos hle]
  · norm_num [neonate29of365Case, DrgCase.new, Rat.mk'_eq_divInt, Rat.divInt_eq_div]
  · norm_num [agePoint08Case, DrgCase.new, Rat.mk'_eq_divInt, Rat.divInt_eq_div]

/-- C9: the CB4-and-CB5 and CB5-and-CB6 rule predicates agree on every
case, table and ADRG name: both test the case's procedure set against the
"CB4" and "CB5" table slices. -/
theorem cb4cb5_eq_cb5cb6 (record : DrgCase) (adrg_dis_opt : List (String × List String))
    (adrg_name : String) :
    is_contain_cb4_opt_and_cb5_opt record adrg_dis_opt adrg_name =
      is_contain_cb5_opt_and_cb6_opt record adrg_dis_opt adrg_name := rfl

/-- C10: the constructor's derived all-diagnoses and all-procedures sets
unconditionally contain the principal diagnosis and principal procedure,
including when those fields are the empty string (last conjunct: a case
with no principal procedure observes "" in its all-procedures set). -/
theorem new_all_sets_contain_principal (i md mo : String) (od oo : List String)
    (s : Int) (a : ℚ) (w : Int) :
    md ∈ (DrgCase.new i md mo od oo s a w).all_dis ∧
    mo ∈ (DrgCase.new i md mo od oo s a w).all_opt ∧
    "" ∈ (DrgCase.new i md "" od oo s a w).all_opt := by
  refine ⟨?_, ?_, ?_⟩ <;> simp [DrgCase.new]

-- Claim C5: characterization of the QY reclassification ------------------------

/-- The ADRG's second character (as a one-character string), total form of
`rustSlice s 1 1`. -/
def secondCharStr (s : String) : String := (rustSlice s 1 1).getD ""

/-- The ADRG's first character (as a one-character string), total form of
`rustSlice s 0 0`. -/
def firstCharStr (s : String) : String := (rustSlice s 0 0).getD ""

/-- C5: for an ADRG name of length at least 2 (every real ADRG code; the
"KBBZ" sentinel also qualifies) and a procedure table not containing the
empty string, `qy_judge` rewrites the ADRG to its first character followed
by "QY" exactly when the ADRG is not "KBBZ", the principal procedure is in
the global valid-procedure set, and the second character is in the
internal band R-Z; otherwise it returns the ADRG unchanged, and a case
with no principal procedure is never rewritten. -/
theorem qy_judge_characterization (record : DrgCase) (adrg_name : String)
    (all_opt_list : List String) (hlen : 2 ≤ adrg_name.length)
    (hempty : "" ∉ all_opt_list) :
    qy_judge record adrg_name all_opt_list =
      some (if adrg_name ≠ "KBBZ" ∧ all_opt_list.contains record.main_opt = true ∧
               internalBand.contains (secondCharStr adrg_name) = true
            then firstCharStr adrg_name ++ "QY" else adrg_name) ∧
    (record.main_opt = "" → qy_judge record adrg_name all_opt_list = some adrg_name) := by
  have hs : rustSlice adrg_name 1 1 = some (secondCharStr adrg_name) := by
    unfold secondCharStr rustSlice
    rw [if_pos (by omega)]
    rfl
  have hf : rustSlice adrg_name 0 0 = some (firstCharStr adrg_name) := by
    unfold firstCharStr rustSlice
    rw [if_pos (by omega)]
    rfl
  have main :
      qy_judge record adrg_name all_opt_list =
        some (if adrg_name ≠ "KBBZ" ∧ all_opt_list.contains record.main_opt = true ∧
                 internalBand.contains (secondCharStr adrg_name) = true
              then firstCharStr adrg_name ++ "QY" else adrg_name) := by
    unfold qy_judge
    by_cases hk : adrg_name = "KBBZ"
    · subst hk
      rw [if_pos rfl, if_neg (by simp)]
    · rw [if_neg hk]
      unfold DrgCase.is_vaild_surgrey
      by_cases hv : all_opt_list.contains record.main_opt = true
      · rw [if_pos hv, hs]
        by_cases hb : internalBand.contains (secondCharStr adrg_name) = true
        · simp only [Option.bind_eq_bind, Option.some_bind]
          rw [if_pos hb, hf]
          simp only [Option.some_bind]
          rw [if_pos ⟨hk, hv, hb⟩]
          rfl
        · simp only [Option.bind_eq_bind, Option.some_bind]
          rw [if_neg hb, if_neg (by tauto)]
          rfl
      · rw [if_neg hv, if_neg (by tauto)]
        rfl
  refine ⟨main, fun hmo => ?_⟩
  have hcon : all_opt_list.contains record.main_opt = false := by
    rw [hmo]
    simpa using hempty
  rw [main, if_neg (by intro hc; rw [hcon] at hc; simp at hc)]

def qyWitnessCase : DrgCase := DrgCase.new "c5" "D1" "P1" [] [] 1 (Rat.mk' 20 1) 0

/-- Witness for C5: a valid-procedure case resolved to "BR1" (second
character in the internal band) is rewritten to "BQY". -/
theorem qy_judge_characterization_witness :
    qy_judge qyWitnessCase "BR1" ["P1"] = some "BQY" := by
  have h := (qy_judge_characterization qyWitnessCase "BR1" ["P1"] (by decide) (by decide)).1
  exact h.trans (by decide)

-- Claim C8: empty principal diagnosis ------------------------------------------

/-- C8: a case with an empty principal diagnosis yields the "KBBZ"
sentinel from both the ADRG resolver and the DRG refiner, as a normal
(`some`, never a panic) result, for every other field and every table. -/
theorem empty_main_dis_yields_kbbz (record : DrgCase)
    (adrg_dis_opt : List (String × List String)) (all_opt_list all_dis_list : List String)
    (main_dis_sheet : List (String × List String)) (adrg_type_dict : List (String × String))
    (mdcz_dis_sheet : List (String × List String)) (mdcy_dis_sheet : List String)
    (mdc_sub_adrg : List (String × List String))
    (ccmcc_sheet : List (String × List String)) (exclude_sheet : List (String × String))
    (adrg_drg_name_sheet : List (String × List String))
    (h : record.main_dis = "") :
    which_adrg record adrg_dis_opt all_opt_list all_dis_list main_dis_sheet adrg_type_dict
        mdcz_dis_sheet mdcy_dis_sheet mdc_sub_adrg = some "KBBZ" ∧
    process_drg record "KBBZ" ccmcc_sheet exclude_sheet adrg_drg_name_sheet = some "KBBZ" := by
  constructor
  · unfold which_adrg
    rw [if_pos (by simp [DrgCase.no_main_diagnosis, h])]
  · unfold process_drg
    rw [if_pos rfl]

def emptyDisCase : DrgCase := DrgCase.new "c8" "" "P1" ["X1"] ["P2"] 1 (Rat.mk' 20 1) 0

/-- Witness for C8 at a concrete case and empty tables. -/
theorem empty_main_dis_yields_kbbz_witness :
    which_adrg emptyDisCase [] [] [] [] [] [] [] [] = some "KBBZ" ∧
    process_drg emptyDisCase "KBBZ" [] [] [] = some "KBBZ" :=
  empty_main_dis_yields_kbbz emptyDisCase [] [] [] [] [] [] [] [] [] [] [] rfl

-- Shared helper lemmas ---------------------------------------------------------

theorem lookup_mem {β : Type} (l : List (String × β)) (k : String) (v : β)
    (h : l.lookup k = some v) : (k, v) ∈ l := by
  induction l with
  | nil => simp [List.lookup] at h
  | cons p rest ih =>
      obtain ⟨k', v'⟩ := p
      simp only [List.lookup] at h
      split at h
      · next heq =>
          cases h
          have hk : k = k' := eq_of_beq heq
          subst hk
          exact List.mem_cons_self _ _
      · exact List.mem_cons_of_mem _ (ih h)

theorem get?_of_lt {α : Type} (l : List α) (i : Nat) (d : α) (h : i < l.length) :
    l.get? i = some (l.getD i d) := by
  rw [List.getD_eq_getElem?_getD]
  cases hx : l.get? i with
  | none => exact absurd (List.get?_eq_none.mp hx) (by omega)
  | some x =>
      simp [List.get?_eq_getElem?] at hx
      simp [hx]

-- Claim C6: severity suppression and aggregation -------------------------------

/-- Follows the spec's words (§4.3 step 2), for comparison with the code:
an entry is discarded when its tier label (major/minor, component 1 of
the severity entry) matches the exclusion entry; among survivors the
qualifying severity is major if any is tagged MCC, else minor if any is
tagged CC, else none. -/
def spec_severity (excl : String) (ccmccs : List (List String)) : String :=
  let surv := ccmccs.filter (fun c => !(c.getD 1 "" == excl))
  if surv.any (fun c => c.getD 1 "" == "MCC") then "MCC"
  else if surv.any (fun c => c.getD 1 "" == "CC") then "CC"
  else "none"

/-- Follows the spec's words (§4.3 step 3, three registered codes):
major picks the 1-code, minor the 3-code, none the 5-code. -/
def spec_three_code_pick (d : List (Nat × String)) (sev : String) : Option String :=
  if sev = "MCC" then d.lookup 1 else if sev = "CC" then d.lookup 3 else d.lookup 5

def discardCase : DrgCase := DrgCase.new "c6" "D1" "" ["C1"] [] 1 (Rat.mk' 20 1) 0

def discardCcmcc : List (String × List String) := [("C1", ["T1", "CC"])]

def discardExclude : List (String × String) := [("D1", "T1")]

/-- C6 (counterexample): the only other diagnosis of this case has the
severity entry ["T1", "CC"] and the exclusion entry keyed by the
principal diagnosis is "T1".  Under the claim's discard rule the entry
survives (its tier label "CC" differs from "T1") as minor, so the
three-code refinement should pick the 3-code "BR13" (first and second
conjuncts compute this from the spec-side definitions); the code discards
the entry — it compares component 0, the exclusion tag — and returns the
5-code "BR15" (third conjunct). -/
theorem discard_rule_counterexample :
    spec_severity ((discardExclude.lookup "D1").getD "")
      (discardCase.other_dis.filterMap (fun x => discardCcmcc.lookup x)) = "CC" ∧
    spec_three_code_pick [(5, "BR15"), (3, "BR13"), (1, "BR11")] "CC" = some "BR13" ∧
    process_drg discardCase "BR1" discardCcmcc discardExclude threeCodeSheet
      = some "BR15" := by decide

/-- Well-formedness of one severity-table entry: at least two components,
the tier component 1 is "MCC" or "CC", and the exclusion-tag component 0
is neither (tags are exclusion-table names, disjoint from the tiers). -/
def ccmccEntryOk (c : List String) : Bool :=
  decide (2 ≤ c.length) && (c.getD 1 "" == "MCC" || c.getD 1 "" == "CC") &&
  !(c.getD 0 "" == "MCC") && !(c.getD 0 "" == "CC")

/-- The survivors of the code's discard rule: entries whose exclusion-tag
component 0 differs from the exclusion entry. -/
def survivingCcmcc (excl : String) (ccmccs : List (List String)) : List (List String) :=
  ccmccs.filter (fun c => !(c.getD 0 "" == excl))

theorem survivingCcmcc_cons_discard (excl : String) (c : List String)
    (rest : List (List String)) (h : c.getD 0 "" = excl) :
    survivingCcmcc excl (c :: rest) = survivingCcmcc excl rest := by
  rw [List.getD_eq_getElem?_getD] at h
  simp only [survivingCcmcc, List.filter_cons]
  rw [if_neg]
  simp [h]

theorem survivingCcmcc_cons_keep (excl : String) (c : List String)
    (rest : List (List String)) (h : ¬ c.getD 0 "" = excl) :
    survivingCcmcc excl (c :: rest) = c :: survivingCcmcc excl rest := by
  rw [List.getD_eq_getElem?_getD] at h
  simp only [survivingCcmcc, List.filter_cons]
  rw [if_pos]
  simp [h]

/-- Characterization of the three-code severity loop on well-formed
entries: it never panics, never produces "CC", and produces "MCC" exactly
when some survivor is tagged MCC. -/
theorem highLoop_spec (excl : String) (l : List (List String))
    (hw : ∀ c ∈ l, ccmccEntryOk c = true) :
    ∀ init, init ≠ "MCC" → init ≠ "CC" →
      ∃ lab, highLoop excl init l = some lab ∧ lab ≠ "CC" ∧
        (lab = "MCC" ↔
          (survivingCcmcc excl l).any (fun c => c.getD 1 "" == "MCC") = true) := by
  induction l with
  | nil =>
      intro init h1 h2
      exact ⟨init, rfl, h2, by simp [survivingCcmcc, h1]⟩
  | cons c rest ih =>
      intro init h1 h2
      have hc : ccmccEntryOk c = true := hw c (List.mem_cons_self c rest)
      have hrest : ∀ x ∈ rest, ccmccEntryOk x = true :=
        fun x hx => hw x (List.mem_cons_of_mem c hx)
      simp only [ccmccEntryOk, Bool.and_eq_true, decide_eq_true_eq, Bool.or_eq_true,
        beq_iff_eq, Bool.not_eq_true', beq_eq_false_iff_ne, ne_eq] at hc
      obtain ⟨⟨⟨hlen2, htier⟩, hc0m⟩, hc0c⟩ := hc
      have hg0 : c.get? 0 = some (c.getD 0 "") := get?_of_lt c 0 "" (by omega)
      have hg1 : c.get? 1 = some (c.getD 1 "") := get?_of_lt c 1 "" (by omega)
      by_cases hd0 : c.getD 0 "" = excl
      · -- the entry is discarded: the loop continues with the same label
        obtain ⟨lab, hrun, hnc, hiff⟩ := ih hrest init h1 h2
        refine ⟨lab, ?_, hnc, ?_⟩
        · simp only [highLoop, Option.bind_eq_bind, hg0, Option.some_bind]
          rw [if_pos hd0]
          exact hrun
        · rw [hiff, survivingCcmcc_cons_discard excl c rest hd0]
      · by_cases ht : c.getD 1 "" = "MCC"
        · -- surviving MCC entry: the loop stops with "MCC"
          refine ⟨"MCC", ?_, by decide, ?_⟩
          · simp only [highLoop, Option.bind_eq_bind, hg0, Option.some_bind]
            rw [if_neg hd0]
            simp only [hg1, Option.some_bind]
            rw [if_pos ht]
          · constructor
            · intro _
              rw [survivingCcmcc_cons_keep excl c rest hd0]
              simp only [List.any_cons, Bool.or_eq_true, beq_iff_eq]
              exact Or.inl ht
            · intro _
              rfl
        · -- surviving CC entry: the source stores the exclusion tag
          have htcc : c.getD 1 "" = "CC" := htier.resolve_left ht
          obtain ⟨lab, hrun, hnc, hiff⟩ := ih hrest (c.getD 0 "") hc0m hc0c
          refine ⟨lab, ?_, hnc, ?_⟩
          · simp only [highLoop, Option.bind_eq_bind, hg0, Option.some_bind]
            rw [if_neg hd0]
            simp only [hg1, Option.some_bind]
            rw [if_neg ht]
            exact hrun
          · rw [survivingCcmcc_cons_keep excl c rest hd0]
            simp only [List.any_cons, Bool.or_eq_true, beq_iff_eq, htcc]
            constructor
            · intro hx
              exact Or.inr (hiff.mp hx)
            · intro hx
              rcases hx with hy | hy
              · exact absurd hy (by decide)
              · exact hiff.mpr hy

/-- C6 (amended): in the three-registered-codes branch of the DRG
refiner, an other-diagnosis present in the severity table is discarded
exactly when the FIRST component of its severity entry (its
exclusion-group tag, not its major/minor tier) matches the exclusion
entry keyed by the principal diagnosis; among the surviving diagnoses the
qualifying severity is major (the 1-code) if any survivor is tagged MCC,
and otherwise none (the 5-code) — the minor tier is unreachable in this
branch because the source records the exclusion-tag component of a
surviving CC entry instead of its tier. -/
theorem process_drg_three_code_severity (record : DrgCase) (adrg_name : String)
    (ccmcc_sheet : List (String × List String)) (exclude_sheet : List (String × String))
    (adrg_drg_name_sheet : List (String × List String))
    (codes : List String) (d : List (Nat × String))
    (hk : adrg_name ≠ "KBBZ")
    (hlen : 3 ≤ adrg_name.length)
    (hq : rustSlice adrg_name 1 2 ≠ some "QY")
    (hcodes : adrg_drg_name_sheet.lookup adrg_name = some codes)
    (hd : buildWaitDict [] codes = some d)
    (h3 : d.length = 3)
    (hw : ∀ p ∈ ccmcc_sheet, ccmccEntryOk p.2 = true) :
    process_drg record adrg_name ccmcc_sheet exclude_sheet adrg_drg_name_sheet =
      (if (survivingCcmcc ((exclude_sheet.lookup record.main_dis).getD "")
             (record.other_dis.filterMap (fun x => ccmcc_sheet.lookup x))).any
           (fun c => c.getD 1 "" == "MCC")
       then d.lookup 1 else d.lookup 5) := by
  have hsl : rustSlice adrg_name 1 2
      = some (String.mk ((adrg_name.toList.drop 1).take 2)) := by
    unfold rustSlice
    rw [if_pos (by omega)]
  have hqs : ¬ (String.mk ((adrg_name.toList.drop 1).take 2)) = "QY" := by
    intro hx
    exact hq (hsl.trans (by rw [hx]))
  have hwl : ∀ c ∈ record.other_dis.filterMap (fun x => ccmcc_sheet.lookup x),
      ccmccEntryOk c = true := by
    intro c hcmem
    rw [List.mem_filterMap] at hcmem
    obtain ⟨x, hx, hlk⟩ := hcmem
    exact hw (x, c) (lookup_mem ccmcc_sheet x c hlk)
  obtain ⟨lab, hrun, hnc, hiff⟩ :=
    highLoop_spec ((exclude_sheet.lookup record.main_dis).getD "")
      (record.other_dis.filterMap (fun x => ccmcc_sheet.lookup x)) hwl
      "exclude" (by decide) (by decide)
  unfold process_drg
  rw [if_neg hk]
  simp only [Option.bind_eq_bind, hsl, Option.some_bind]
  rw [if_neg hqs]
  simp only [hcodes, Option.some_bind, hd]
  rw [if_neg (by omega : ¬ d.length = 1), if_neg (by omega : ¬ d.length = 2)]
  simp only [hrun, Option.some_bind]
  by_cases hm : lab = "MCC"
  · rw [if_pos hm, if_pos (hiff.mp hm)]
  · rw [if_neg hm, if_neg hnc, if_neg (fun hany => hm (hiff.mpr hany))]

def mccWitnessCase : DrgCase := DrgCase.new "c6w" "D2" "" ["C9"] [] 1 (Rat.mk' 20 1) 0

/-- Witness for the amended C6: a surviving MCC-tagged diagnosis under a
three-code ADRG receives the 1-code. -/
theorem process_drg_three_code_severity_witness :
    process_drg mccWitnessCase "BR1" [("C9", ["T3", "MCC"])] []
      [("BR1", ["BR11", "BR13", "BR15"])] = some "BR11" := by
  have h := process_drg_three_code_severity mccWitnessCase "BR1"
    [("C9", ["T3", "MCC"])] [] [("BR1", ["BR11", "BR13", "BR15"])]
    ["BR11", "BR13", "BR15"] [(5, "BR15"), (3, "BR13"), (1, "BR11")]
    (by decide) (by decide) (by decide) (by decide) (by decide) (by decide)
    (by decide)
  exact h.trans (by decide)

-- Claim C4: totality of the composed grouping ----------------------------------

/-- The table keys a rule predicate may read, given the ADRG name and its
rule-type string (an unrecognized rule type reads no keys and simply
fails to "KBBZ"). -/
def ruleKeys (adrg_name typ : String) : List String :=
  match typ with
  | "is_contain_main_dis" => [adrg_name]
  | "is_contain_main_opt" => [adrg_name]
  | "is_contain_main_dis_and_main_opt_simultaneously" =>
      [adrg_name ++ "_contain_main_dis_list", adrg_name ++ "_contain_main_opt_list"]
  | "is_contain_dis" => [adrg_name]
  | "is_contain_opt_simultaneously" =>
      [adrg_name ++ "_normal_list", adrg_name ++ "_other_list"]
  | "is_contain_all_opt" => []
  | "is_contain_multi_opt3" =>
      [adrg_name ++ "_main_dis_list", adrg_name ++ "_main_opt_list1",
       adrg_name ++ "_other_opt_list2"]
  | "is_contain_other_dis" => [adrg_name]
  | "is_contain_multi_opt5" =>
      [adrg_name ++ "_main_dis_list", adrg_name ++ "_other_dis_list1",
       adrg_name ++ "_other_dis_list2", adrg_name ++ "_main_opt_list"]
  | "is_contain_other_dis_or_other_opt1_and_other_opt2" =>
      [adrg_name ++ "_other_dis_list", adrg_name ++ "_other_opt_list1",
       adrg_name ++ "_other_opt_list2"]
  | "is_contain_cb4_opt_and_cb5_opt" => ["CB4", "CB5"]
  | "is_contain_cb5_opt_and_cb6_opt" => ["CB4", "CB5"]
  | "is_contain_multi_opt1" =>
      [adrg_name ++ "_main_dis_list", adrg_name ++ "_main_opt_list1",
       adrg_name ++ "_main_opt_list2", adrg_name ++ "_other_opt_list3",
       adrg_name ++ "_other_opt_list4"]
  | "is_contain_multi_opt2" =>
      [adrg_name ++ "_main_dis_list", adrg_name ++ "_other_opt_list1",
       adrg_name ++ "_other_opt_list2", adrg_name ++ "_other_opt_list3",
       adrg_name ++ "_other_opt_list4", adrg_name ++ "_other_opt_list5"]
  | "is_contain_multi_opt4" =>
      [adrg_name ++ "_main_dis_list1", adrg_name ++ "_main_dis_list2",
       adrg_name ++ "_main_opt_list", adrg_name ++ "_other_dis_list"]
  | "is_dis_and_main_opt" =>
      [adrg_name ++ "_main_dis_list", adrg_name ++ "_main_opt_list"]
  | "is_contain_multi_wb_opt" =>
      [adrg_name ++ "WB1_main_opt_list", adrg_name ++ "WB2_main_opt_list",
       adrg_name ++ "WB3_main_opt_list"]
  | "is_mdcz_dis" => mdczRegions
  | _ => []

/-- Well-formedness of the registered DRG codes of one ADRG: the last
characters are digits, and the tier codes needed by each branch of
`process_drg` are present (a single code ends in 9; two codes contain a 5
and a 1 or a 3; otherwise 1, 3 and 5 are all present). -/
def waitDictOkb (codes : List String) : Bool :=
  match buildWaitDict [] codes with
  | none => false
  | some d =>
      if d.length = 1 then (d.lookup 9).isSome
      else if d.length = 2 then
        (d.lookup 5).isSome && ((d.lookup 1).isSome || (d.lookup 3).isSome)
      else (d.lookup 1).isSome && (d.lookup 3).isSome && (d.lookup 5).isSome

/-- Presence and well-formedness of the registered DRG codes of one ADRG
in the ADRG-to-DRG sheet. -/
def drgOkb (adrg_drg_name_sheet : List (String × List String)) (a : String) : Bool :=
  match adrg_drg_name_sheet.lookup a with
  | none => false
  | some codes => waitDictOkb codes

/-- Well-formedness of one candidate ADRG name: three characters (real
ADRG codes), a rule-type entry whose table keys are all present, and
well-formed registered DRG codes. -/
def candOkb (adrg_dis_opt : List (String × List String))
    (adrg_type_dict : List (String × String))
    (adrg_drg_name_sheet : List (String × List String)) (a : String) : Bool :=
  (a.length == 3) &&
  (match adrg_type_dict.lookup a with
   | none => false
   | some t => (ruleKeys a t).all (fun k => (adrg_dis_opt.lookup k).isSome)) &&
  drgOkb adrg_drg_name_sheet a

/-- Well-formedness of the candidate list registered under one category. -/
def subOkb (adrg_dis_opt : List (String × List String))
    (adrg_type_dict : List (String × String))
    (adrg_drg_name_sheet : List (String × List String))
    (mdc_sub_adrg : List (String × List String)) (m : String) : Bool :=
  match mdc_sub_adrg.lookup m with
  | none => false
  | some l => l.all (candOkb adrg_dis_opt adrg_type_dict adrg_drg_name_sheet)

def specialMdcs : List String := ["MDCA", "MDCP", "MDCY", "MDCZ", "MDCN", "MDCM"]

def regionsOkb (mdcz_dis_sheet : List (String × List String)) : Bool :=
  mdczRegions.all (fun k => (mdcz_dis_sheet.lookup k).isSome)

/-- Self-consistency of a case and Rule Tables bundle (§7 of the spec),
sufficient for panic-freedom of the composed grouping: either the case
has no principal diagnosis, or the principal diagnosis has a non-empty
category list, the hard-coded MDCA candidates and the candidate lists of
MDCP/MDCY/MDCZ and of every declared non-special category are
well-formed, the nine MDCZ region sets exist, and every severity-table
entry has at least two components. -/
def wellFormedb (record : DrgCase) (adrg_dis_opt : List (String × List String))
    (main_dis_sheet : List (String × List String)) (adrg_type_dict : List (String × String))
    (mdcz_dis_sheet : List (String × List String)) (mdc_sub_adrg : List (String × List String))
    (ccmcc_sheet : List (String × List String))
    (adrg_drg_name_sheet : List (String × List String)) : Bool :=
  record.no_main_diagnosis ||
  ((main_dis_sheet.lookup record.main_dis).isSome &&
   !((main_dis_sheet.lookup record.main_dis).getD []).isEmpty &&
   mdcaAdrgList.all (candOkb adrg_dis_opt adrg_type_dict adrg_drg_name_sheet) &&
   regionsOkb mdcz_dis_sheet &&
   subOkb adrg_dis_opt adrg_type_dict adrg_drg_name_sheet mdc_sub_adrg "MDCP" &&
   subOkb adrg_dis_opt adrg_type_dict adrg_drg_name_sheet mdc_sub_adrg "MDCY" &&
   subOkb adrg_dis_opt adrg_type_dict adrg_drg_name_sheet mdc_sub_adrg "MDCZ" &&
   ((main_dis_sheet.lookup record.main_dis).getD []).all
     (fun m => specialMdcs.contains m ||
       subOkb adrg_dis_opt adrg_type_dict adrg_drg_name_sheet mdc_sub_adrg m) &&
   ccmcc_sheet.all (fun p => decide (2 ≤ p.2.length)))

-- Totality of the monadic combinators ------------------------------------------

theorem memM_total (m : List (String × List String)) (k v : String)
    (h : (m.lookup k).isSome = true) : ∃ b, memM m k v = some b := by
  obtain ⟨s, hs⟩ := Option.isSome_iff_exists.mp h
  exact ⟨s.contains v, by simp [memM, hs]⟩

theorem interM_total (m : List (String × List String)) (k : String) (xs : List String)
    (h : (m.lookup k).isSome = true) : ∃ b, interM m k xs = some b := by
  obtain ⟨s, hs⟩ := Option.isSome_iff_exists.mp h
  exact ⟨!hsDisjoint s xs, by simp [interM, hs]⟩

theorem rAnd_total {x y : Option Bool} (hx : ∃ b, x = some b) (hy : ∃ b, y = some b) :
    ∃ b, rAnd x y = some b := by
  obtain ⟨a, ha⟩ := hx
  obtain ⟨b, hb⟩ := hy
  cases a
  · exact ⟨false, by simp [rAnd, ha]⟩
  · exact ⟨b, by simp [rAnd, ha, hb]⟩

theorem rOr_total {x y : Option Bool} (hx : ∃ b, x = some b) (hy : ∃ b, y = some b) :
    ∃ b, rOr x y = some b := by
  obtain ⟨a, ha⟩ := hx
  obtain ⟨b, hb⟩ := hy
  cases a
  · exact ⟨b, by simp [rOr, ha, hb]⟩
  · exact ⟨true, by simp [rOr, ha]⟩

theorem toGroup_total {n : String} {c : Option Bool} (hc : ∃ b, c = some b) :
    ∃ r, toGroup n c = some r ∧ (r = n ∨ r = "KBBZ") := by
  obtain ⟨b, hb⟩ := hc
  cases b
  · exact ⟨"KBBZ", by simp [toGroup, hb], Or.inr rfl⟩
  · exact ⟨n, by simp [toGroup, hb], Or.inl rfl⟩

-- Totality of each rule predicate ----------------------------------------------

theorem is_contain_main_opt_total (record : DrgCase) (m : List (String × List String))
    (a : String) (h : (m.lookup a).isSome = true) :
    ∃ r, is_contain_main_opt record m a = some r ∧ (r = a ∨ r = "KBBZ") := by
  unfold is_contain_main_opt
  split
  · exact ⟨"KBBZ", rfl, Or.inr rfl⟩
  · exact toGroup_total (memM_total m a record.main_opt h)

theorem is_contain_main_dis_total (record : DrgCase) (m : List (String × List String))
    (a : String) (h : (m.lookup a).isSome = true) :
    ∃ r, is_contain_main_dis record m a = some r ∧ (r = a ∨ r = "KBBZ") := by
  unfold is_contain_main_dis
  exact toGroup_total (memM_total m a record.main_dis h)

theorem is_contain_other_dis_total (record : DrgCase) (m : List (String × List String))
    (a : String) (h : (m.lookup a).isSome = true) :
    ∃ r, is_contain_other_dis record m a = some r ∧ (r = a ∨ r = "KBBZ") := by
  unfold is_contain_other_dis
  exact toGroup_total (interM_total m a record.other_dis h)

theorem is_contain_dis_total (record : DrgCase) (m : List (String × List String))
    (a : String) (h : (m.lookup a).isSome = true) :
    ∃ r, is_contain_dis record m a = some r ∧ (r = a ∨ r = "KBBZ") := by
  unfold is_contain_dis
  exact toGroup_total (rAnd_total (memM_total m a record.main_dis h)
    (interM_total m a record.other_dis h))

theorem is_contain_opt_simultaneously_total (record : DrgCase)
    (m : List (String × List String)) (a : String)
    (h1 : (m.lookup (a ++ "_normal_list")).isSome = true)
    (h2 : (m.lookup (a ++ "_other_list")).isSome = true) :
    ∃ r, is_contain_opt_simultaneously record m a = some r ∧ (r = a ∨ r = "KBBZ") := by
  unfold is_contain_opt_simultaneously
  split
  · exact ⟨"KBBZ", rfl, Or.inr rfl⟩
  · exact toGroup_total (rAnd_total (interM_total m _ record.all_opt h1)
      (interM_total m _ record.all_opt h2))

theorem is_contain_main_dis_and_main_opt_simultaneously_total (record : DrgCase)
    (m : List (String × List String)) (a : String)
    (h1 : (m.lookup (a ++ "_contain_main_dis_list")).isSome = true)
    (h2 : (m.lookup (a ++ "_contain_main_opt_list")).isSome = true) :
    ∃ r, is_contain_main_dis_and_main_opt_simultaneously record m a = some r ∧
      (r = a ∨ r = "KBBZ") := by
  unfold is_contain_main_dis_and_main_opt_simultaneously
  split
  · exact ⟨"KBBZ", rfl, Or.inr rfl⟩
  · exact toGroup_total (rAnd_total (memM_total m _ record.main_dis h1)
      (memM_total m _ record.main_opt h2))

theorem is_contain_cb4_opt_and_cb5_opt_total (record : DrgCase)
    (m : List (String × List String)) (a : String)
    (h1 : (m.lookup "CB4").isSome = true) (h2 : (m.lookup "CB5").isSome = true) :
    ∃ r, is_contain_cb4_opt_and_cb5_opt record m a = some r ∧ (r = a ∨ r = "KBBZ") := by
  unfold is_contain_cb4_opt_and_cb5_opt
  split
  · exact ⟨"KBBZ", rfl, Or.inr rfl⟩
  · exact toGroup_total (rAnd_total (interM_total m _ record.all_opt h1)
      (interM_total m _ record.all_opt h2))

theorem is_contain_cb5_opt_and_cb6_opt_total (record : DrgCase)
    (m : List (String × List String)) (a : String)
    (h1 : (m.lookup "CB4").isSome = true) (h2 : (m.lookup "CB5").isSome = true) :
    ∃ r, is_contain_cb5_opt_and_cb6_opt record m a = some r ∧ (r = a ∨ r = "KBBZ") := by
  unfold is_contain_cb5_opt_and_cb6_opt
  split
  · exact ⟨"KBBZ", rfl, Or.inr rfl⟩
  · exact toGroup_total (rAnd_total (interM_total m _ record.all_opt h1)
      (interM_total m _ record.all_opt h2))

theorem is_contain_other_dis_or_other_opt1_and_other_opt2_total (record : DrgCase)
    (m : List (String × List String)) (a : String)
    (h1 : (m.lookup (a ++ "_other_dis_list")).isSome = true)
    (h2 : (m.lookup (a ++ "_other_opt_list1")).isSome = true)
    (h3 : (m.lookup (a ++ "_other_opt_list2")).isSome = true) :
    ∃ r, is_contain_other_dis_or_other_opt1_and_other_opt2 record m a = some r ∧
      (r = a ∨ r = "KBBZ") := by
  unfold is_contain_other_dis_or_other_opt1_and_other_opt2
  split
  · exact ⟨"KBBZ", rfl, Or.inr rfl⟩
  · exact toGroup_total (rAnd_total
      (rOr_total (interM_total m _ record.other_dis h1) (interM_total m _ record.all_opt h2))
      (interM_total m _ record.all_opt h3))

theorem is_contain_multi_wb_opt_total (record : DrgCase)
    (m : List (String × List String)) (a : String)
    (h1 : (m.lookup (a ++ "WB1_main_opt_list")).isSome = true)
    (h2 : (m.lookup (a ++ "WB2_main_opt_list")).isSome = true)
    (h3 : (m.lookup (a ++ "WB3_main_opt_list")).isSome = true) :
    ∃ r, is_contain_multi_wb_opt record m a = some r ∧ (r = a ∨ r = "KBBZ") := by
  unfold is_contain_multi_wb_opt
  split
  · exact ⟨"KBBZ", rfl, Or.inr rfl⟩
  · exact toGroup_total (rOr_total
      (rOr_total (memM_total m _ record.main_opt h1) (memM_total m _ record.main_opt h2))
      (memM_total m _ record.main_opt h3))

theorem is_contain_dis_and_main_opt_total (record : DrgCase)
    (m : List (String × List String)) (a : String)
    (h1 : (m.lookup (a ++ "_main_dis_list")).isSome = true)
    (h2 : (m.lookup (a ++ "_main_opt_list")).isSome = true) :
    ∃ r, is_contain_dis_and_main_opt record m a = some r ∧ (r = a ∨ r = "KBBZ") := by
  unfold is_contain_dis_and_main_opt
  exact toGroup_total (rAnd_total (interM_total m _ record.all_dis h1)
    (memM_total m _ record.main_opt h2))

theorem is_contain_all_opt_total (record : DrgCase) (all_opt : List String) (a : String) :
    ∃ r, is_contain_all_opt record all_opt a = some r ∧ (r = a ∨ r = "KBBZ") := by
  unfold is_contain_all_opt
  split
  · exact ⟨"KBBZ", rfl, Or.inr rfl⟩
  · split
    · exact ⟨a, rfl, Or.inl rfl⟩
    · exact ⟨"KBBZ", rfl, Or.inr rfl⟩

theorem is_contain_multi_opt1_total (record : DrgCase) (m : List (String × List String))
    (a : String)
    (h1 : (m.lookup (a ++ "_main_dis_list")).isSome = true)
    (h2 : (m.lookup (a ++ "_main_opt_list1")).isSome = true)
    (h3 : (m.lookup (a ++ "_main_opt_list2")).isSome = true)
    (h4 : (m.lookup (a ++ "_other_opt_list3")).isSome = true)
    (h5 : (m.lookup (a ++ "_other_opt_list4")).isSome = true) :
    ∃ r, is_contain_multi_opt1 record m a = some r ∧ (r = a ∨ r = "KBBZ") := by
  unfold is_contain_multi_opt1
  split
  · exact ⟨"KBBZ", rfl, Or.inr rfl⟩
  · obtain ⟨b1, hb1⟩ := rAnd_total (memM_total m _ record.main_dis h1)
      (memM_total m _ record.main_opt h2)
    obtain ⟨b2, hb2⟩ := memM_total m (a ++ "_main_opt_list2") record.main_opt h3
    obtain ⟨b3, hb3⟩ := rAnd_total (interM_total m _ record.all_opt h4)
      (interM_total m _ record.all_opt h5)
    simp only [Option.bind_eq_bind, hb1, Option.some_bind]
    cases b1
    · simp only [Bool.false_eq_true, if_false, hb2, Option.some_bind]
      cases b2
      · simp only [Bool.false_eq_true, if_false, hb3, Option.some_bind]
        cases b3
        · exact ⟨"KBBZ", rfl, Or.inr rfl⟩
        · exact ⟨a, rfl, Or.inl rfl⟩
      · exact ⟨a, rfl, Or.inl rfl⟩
    · exact ⟨a, rfl, Or.inl rfl⟩

theorem is_contain_multi_opt2_total (record : DrgCase) (m : List (String × List String))
    (a : String)
    (h1 : (m.lookup (a ++ "_main_dis_list")).isSome = true)
    (h2 : (m.lookup (a ++ "_other_opt_list1")).isSome = true)
    (h3 : (m.lookup (a ++ "_other_opt_list2")).isSome = true)
    (h4 : (m.lookup (a ++ "_other_opt_list3")).isSome = true)
    (h5 : (m.lookup (a ++ "_other_opt_list4")).isSome = true)
    (h6 : (m.lookup (a ++ "_other_opt_list5")).isSome = true) :
    ∃ r, is_contain_multi_opt2 record m a = some r ∧ (r = a ∨ r = "KBBZ") := by
  unfold is_contain_multi_opt2
  split
  · exact ⟨"KBBZ", rfl, Or.inr rfl⟩
  · obtain ⟨b1, hb1⟩ := rAnd_total (rAnd_total (memM_total m _ record.main_dis h1)
      (interM_total m _ record.all_opt h2)) (interM_total m _ record.all_opt h3)
    obtain ⟨b2, hb2⟩ := rAnd_total (rAnd_total (rAnd_total
      (memM_total m _ record.main_dis h1) (interM_total m _ record.all_opt h2))
      (interM_total m _ record.all_opt h4)) (interM_total m _ record.all_opt h5)
    obtain ⟨b3, hb3⟩ := rAnd_total (rAnd_total (memM_total m _ record.main_dis h1)
      (interM_total m _ record.all_opt h5)) (interM_total m _ record.all_opt h6)
    simp only [Option.bind_eq_bind, hb1, Option.some_bind]
    cases b1
    · simp only [Bool.false_eq_true, if_false, hb2, Option.some_bind]
      cases b2
      · simp only [Bool.false_eq_true, if_false, hb3, Option.some_bind]
        cases b3
        · exact ⟨"KBBZ", rfl, Or.inr rfl⟩
        · exact ⟨a, rfl, Or.inl rfl⟩
      · exact ⟨a, rfl, Or.inl rfl⟩
    · exact ⟨a, rfl, Or.inl rfl⟩

theorem is_contain_multi_opt3_total (record : DrgCase) (m : List (String × List String))
    (a : String)
    (h1 : (m.lookup (a ++ "_main_dis_list")).isSome = true)
    (h2 : (m.lookup (a ++ "_main_opt_list1")).isSome = true)
    (h3 : (m.lookup (a ++ "_other_opt_list2")).isSome = true) :
    ∃ r, is_contain_multi_opt3 record m a = some r ∧ (r = a ∨ r = "KBBZ") := by
  unfold is_contain_multi_opt3
  obtain ⟨b1, hb1⟩ := rAnd_total (memM_total m _ record.main_dis h1)
    (memM_total m _ record.main_opt h2)
  obtain ⟨b2, hb2⟩ := rAnd_total (memM_total m (a ++ "_main_dis_list") record.main_dis h1)
    (rOr_total (memM_total m _ record.main_opt h3) (interM_total m _ record.all_opt h3))
  simp only [Option.bind_eq_bind, hb1, Option.some_bind]
  cases b1
  · simp only [Bool.false_eq_true, if_false, hb2, Option.some_bind]
    cases b2
    · exact ⟨"KBBZ", rfl, Or.inr rfl⟩
    · exact ⟨a, rfl, Or.inl rfl⟩
  · exact ⟨a, rfl, Or.inl rfl⟩

theorem is_contain_multi_opt4_total (record : DrgCase) (m : List (String × List String))
    (a : String)
    (h1 : (m.lookup (a ++ "_main_dis_list1")).isSome = true)
    (h2 : (m.lookup (a ++ "_main_dis_list2")).isSome = true)
    (h3 : (m.lookup (a ++ "_main_opt_list")).isSome = true)
    (h4 : (m.lookup (a ++ "_other_dis_list")).isSome = true) :
    ∃ r, is_contain_multi_opt4 record m a = some r ∧ (r = a ∨ r = "KBBZ") := by
  unfold is_contain_multi_opt4
  obtain ⟨b1, hb1⟩ := rAnd_total (memM_total m _ record.main_dis h1)
    (memM_total m _ record.main_opt h3)
  obtain ⟨b2, hb2⟩ := rAnd_total (rAnd_total (memM_total m _ record.main_dis h2)
    (interM_total m _ record.other_dis h4)) (memM_total m (a ++ "_main_opt_list") record.main_opt h3)
  simp only [Option.bind_eq_bind, hb1, Option.some_bind]
  cases b1
  · simp only [Bool.false_eq_true, if_false, hb2, Option.some_bind]
    cases b2
    · exact ⟨"KBBZ", rfl, Or.inr rfl⟩
    · exact ⟨a, rfl, Or.inl rfl⟩
  · exact ⟨a, rfl, Or.inl rfl⟩

theorem is_contain_multi_opt5_total (record : DrgCase) (m : List (String × List String))
    (a : String)
    (h1 : (m.lookup (a ++ "_main_dis_list")).isSome = true)
    (h2 : (m.lookup (a ++ "_other_dis_list1")).isSome = true)
    (h3 : (m.lookup (a ++ "_other_dis_list2")).isSome = true)
    (h4 : (m.lookup (a ++ "_main_opt_list")).isSome = true) :
    ∃ r, is_contain_multi_opt5 record m a = some r ∧ (r = a ∨ r = "KBBZ") := by
  unfold is_contain_multi_opt5
  split
  · exact ⟨"KBBZ", rfl, Or.inr rfl⟩
  · obtain ⟨b1, hb1⟩ := rAnd_total (rAnd_total (memM_total m _ record.main_dis h1)
      (interM_total m _ record.other_dis h2)) (memM_total m _ record.main_opt h4)
    obtain ⟨b2, hb2⟩ := rAnd_total (interM_total m _ record.other_dis h3)
      (memM_total m (a ++ "_main_opt_list") record.main_opt h4)
    simp only [Option.bind_eq_bind, hb1, Option.some_bind]
    cases b1
    · simp only [Bool.false_eq_true, if_false, hb2, Option.some_bind]
      cases b2
      · exact ⟨"KBBZ", rfl, Or.inr rfl⟩
      · exact ⟨a, rfl, Or.inl rfl⟩
    · exact ⟨a, rfl, Or.inl rfl⟩

theorem countRegions_total (m : List (String × List String)) (dis : List String)
    (ks : List String) (h : ∀ k ∈ ks, (m.lookup k).isSome = true) :
    ∃ n, countRegions m dis ks = some n := by
  induction ks with
  | nil => exact ⟨0, rfl⟩
  | cons k rest ih =>
      obtain ⟨s, hs⟩ := Option.isSome_iff_exists.mp (h k (List.mem_cons_self k rest))
      obtain ⟨n, hn⟩ := ih (fun x hx => h x (List.mem_cons_of_mem k hx))
      refine ⟨if !hsDisjoint s dis then n + 1 else n, ?_⟩
      simp [countRegions, Option.bind_eq_bind, hs, hn, Option.some_bind]

theorem is_mdcz_dis_total (record : DrgCase) (m : List (String × List String)) (a : String)
    (h : ∀ k ∈ mdczRegions, (m.lookup k).isSome = true) :
    ∃ r, is_mdcz_dis record m a = some r ∧ (r = a ∨ r = "KBBZ") := by
  obtain ⟨n, hn⟩ := countRegions_total m record.all_dis mdczRegions h
  unfold is_mdcz_dis
  simp only [Option.bind_eq_bind, hn, Option.some_bind]
  refine ⟨if n > 1 then a else "KBBZ", rfl, ?_⟩
  split
  · exact Or.inl rfl
  · exact Or.inr rfl

theorem mem_k0 {x : String} {l : List String} : x ∈ x :: l := List.mem_cons_self x l

theorem mem_k1 {y x : String} {l : List String} : x ∈ y :: x :: l :=
  List.mem_cons_of_mem _ mem_k0

theorem mem_k2 {y z x : String} {l : List String} : x ∈ y :: z :: x :: l :=
  List.mem_cons_of_mem _ mem_k1

theorem mem_k3 {y z w x : String} {l : List String} : x ∈ y :: z :: w :: x :: l :=
  List.mem_cons_of_mem _ mem_k2

theorem mem_k4 {y z w u x : String} {l : List String} : x ∈ y :: z :: w :: u :: x :: l :=
  List.mem_cons_of_mem _ mem_k3

theorem mem_k5 {y z w u v x : String} {l : List String} : x ∈ y :: z :: w :: u :: v :: x :: l :=
  List.mem_cons_of_mem _ mem_k4

/-- Totality of the rule-type dispatch: a well-formed candidate's
predicate evaluates without panic, to the candidate's name or "KBBZ". -/
theorem process_adrg_total (record : DrgCase) (adrg_dis_opt : List (String × List String))
    (all_opt_list : List String) (adrg_type_dict : List (String × String))
    (adrg_drg_name_sheet : List (String × List String)) (a : String)
    (h : candOkb adrg_dis_opt adrg_type_dict adrg_drg_name_sheet a = true) :
    ∃ r, process_adrg record adrg_dis_opt all_opt_list adrg_type_dict a = some r ∧
      (r = a ∨ r = "KBBZ") := by
  simp only [candOkb, Bool.and_eq_true] at h
  obtain ⟨⟨hlen, htyp⟩, hdrg⟩ := h
  split at htyp
  · exact absurd htyp (by simp)
  · rename_i t hlk
    have hkeys : ∀ k ∈ ruleKeys a t, (adrg_dis_opt.lookup k).isSome = true :=
      fun k hk => List.all_eq_true.mp htyp k hk
    unfold process_adrg
    simp only [Option.bind_eq_bind, hlk, Option.some_bind]
    split
    · exact is_contain_main_dis_total record adrg_dis_opt a (hkeys _ mem_k0)
    · exact is_contain_main_opt_total record adrg_dis_opt a (hkeys _ mem_k0)
    · exact is_contain_main_dis_and_main_opt_simultaneously_total record adrg_dis_opt a
        (hkeys _ mem_k0) (hkeys _ mem_k1)
    · exact is_contain_dis_total record adrg_dis_opt a (hkeys _ mem_k0)
    · exact is_contain_opt_simultaneously_total record adrg_dis_opt a
        (hkeys _ mem_k0) (hkeys _ mem_k1)
    · exact is_contain_all_opt_total record all_opt_list a
    · exact is_contain_multi_opt3_total record adrg_dis_opt a
        (hkeys _ mem_k0) (hkeys _ mem_k1) (hkeys _ mem_k2)
    · exact is_contain_other_dis_total record adrg_dis_opt a (hkeys _ mem_k0)
    · exact is_contain_multi_opt5_total record adrg_dis_opt a
        (hkeys _ mem_k0) (hkeys _ mem_k1) (hkeys _ mem_k2) (hkeys _ mem_k3)
    · exact is_contain_other_dis_or_other_opt1_and_other_opt2_total record adrg_dis_opt a
        (hkeys _ mem_k0) (hkeys _ mem_k1) (hkeys _ mem_k2)
    · exact is_contain_cb4_opt_and_cb5_opt_total record adrg_dis_opt a
        (hkeys _ mem_k0) (hkeys _ mem_k1)
    · exact is_contain_cb5_opt_and_cb6_opt_total record adrg_dis_opt a
        (hkeys _ mem_k0) (hkeys _ mem_k1)
    · exact is_contain_multi_opt1_total record adrg_dis_opt a
        (hkeys _ mem_k0) (hkeys _ mem_k1) (hkeys _ mem_k2) (hkeys _ mem_k3) (hkeys _ mem_k4)
    · exact is_contain_multi_opt2_total record adrg_dis_opt a
        (hkeys _ mem_k0) (hkeys _ mem_k1) (hkeys _ mem_k2) (hkeys _ mem_k3) (hkeys _ mem_k4)
        (hkeys _ mem_k5)
    · exact is_contain_multi_opt4_total record adrg_dis_opt a
        (hkeys _ mem_k0) (hkeys _ mem_k1) (hkeys _ mem_k2) (hkeys _ mem_k3)
    · exact is_contain_dis_and_main_opt_total record adrg_dis_opt a
        (hkeys _ mem_k0) (hkeys _ mem_k1)
    · exact is_contain_multi_wb_opt_total record adrg_dis_opt a
        (hkeys _ mem_k0) (hkeys _ mem_k1) (hkeys _ mem_k2)
    · exact is_mdcz_dis_total record adrg_dis_opt a hkeys
    · exact ⟨"KBBZ", rfl, Or.inr rfl⟩

theorem tryAdrgs_total (f : String → Option String) (l : List String)
    (hf : ∀ a ∈ l, ∃ r, f a = some r ∧ (r = a ∨ r = "KBBZ")) :
    ∀ pred, ∃ r, tryAdrgs f pred l = some r ∧ (r = pred ∨ r = "KBBZ" ∨ r ∈ l) := by
  induction l with
  | nil => exact fun pred => ⟨pred, rfl, Or.inl rfl⟩
  | cons c cs ih =>
      intro pred
      obtain ⟨p, hp, hpor⟩ := hf c (List.mem_cons_self c cs)
      have hcs : ∀ a ∈ cs, ∃ r, f a = some r ∧ (r = a ∨ r = "KBBZ") :=
        fun a ha => hf a (List.mem_cons_of_mem c ha)
      simp only [tryAdrgs, Option.bind_eq_bind, hp, Option.some_bind]
      by_cases hpk : p = "KBBZ"
      · rw [if_neg (fun hne => hne hpk)]
        obtain ⟨r, hr, hror⟩ := ih hcs p
        refine ⟨r, hr, ?_⟩
        rcases hror with h | h | h
        · exact Or.inr (Or.inl (h.trans hpk))
        · exact Or.inr (Or.inl h)
        · exact Or.inr (Or.inr (List.mem_cons_of_mem c h))
      · rw [if_pos hpk]
        refine ⟨p, rfl, ?_⟩
        rcases hpor with h | h
        · exact Or.inr (Or.inr (h ▸ List.mem_cons_self c cs))
        · exact absurd h hpk

theorem is_mdca_total (record : DrgCase) (adrg_dis_opt : List (String × List String))
    (all_opt_list : List String) (adrg_type_dict : List (String × String))
    (adrg_drg_name_sheet : List (String × List String))
    (hall : mdcaAdrgList.all (candOkb adrg_dis_opt adrg_type_dict adrg_drg_name_sheet) = true) :
    ∃ r, is_mdca record adrg_dis_opt all_opt_list adrg_type_dict "MDCA" = some r ∧
      (r = "KBBZ" ∨ candOkb adrg_dis_opt adrg_type_dict adrg_drg_name_sheet r = true) := by
  unfold is_mdca
  split
  · exact ⟨"KBBZ", rfl, Or.inl rfl⟩
  · obtain ⟨r, hr, hror⟩ := tryAdrgs_total _ mdcaAdrgList
      (fun a ha => process_adrg_total record adrg_dis_opt all_opt_list adrg_type_dict
        adrg_drg_name_sheet a (List.all_eq_true.mp hall a ha)) "KBBZ"
    refine ⟨r, hr, ?_⟩
    rcases hror with h | h | h
    · exact Or.inl h
    · exact Or.inl h
    · exact Or.inr (List.all_eq_true.mp hall r h)

theorem is_mdcz_total (record : DrgCase) (adrg_dis_opt : List (String × List String))
    (all_opt_list : List String) (adrg_type_dict : List (String × String))
    (mdcz_dis_sheet : List (String × List String))
    (h : regionsOkb mdcz_dis_sheet = true) :
    ∃ r, is_mdcz record adrg_dis_opt all_opt_list adrg_type_dict mdcz_dis_sheet "MDCZ"
      = some r := by
  obtain ⟨p, hp, _⟩ := is_mdcz_dis_total record mdcz_dis_sheet "ZZ1"
    (fun k hk => List.all_eq_true.mp h k hk)
  refine ⟨if p = "ZZ1" then "MDCZ" else "KBBZ", ?_⟩
  simp [is_mdcz, Option.bind_eq_bind, hp, Option.some_bind]

theorem is_mdcn_total (record : DrgCase) (main_dis_sheet : List (String × List String))
    (l : List String) (hlk : main_dis_sheet.lookup record.main_dis = some l) (hne : l ≠ []) :
    ∃ m, is_mdcn record main_dis_sheet "MDCN" = some m ∧ m ≠ "MDCN" := by
  unfold is_mdcn
  split
  · cases l with
    | nil => exact absurd rfl hne
    | cons x rest =>
        refine ⟨if x = "MDCN" then "MDCY" else "KBBZ", ?_, ?_⟩
        · simp [Option.bind_eq_bind, hlk, Option.some_bind]
        · split
          · decide
          · decide
  · exact ⟨"KBBZ", rfl, by decide⟩

theorem is_mdcm_total (record : DrgCase) (main_dis_sheet : List (String × List String))
    (l : List String) (hlk : main_dis_sheet.lookup record.main_dis = some l) (hne : l ≠ []) :
    ∃ m, is_mdcm record main_dis_sheet "MDCM" = some m ∧ m ≠ "MDCM" := by
  unfold is_mdcm
  split
  · cases l with
    | nil => exact absurd rfl hne
    | cons x rest =>
        refine ⟨if x = "MDCM" then "MDCY" else "KBBZ", ?_, ?_⟩
        · simp [Option.bind_eq_bind, hlk, Option.some_bind]
        · split
          · decide
          · decide
  · exact ⟨"KBBZ", rfl, by decide⟩

/-- Totality of one category branch body: looking up the category's
candidate list, running the candidate loop and continuing the walk. -/
theorem bindSub_total (record : DrgCase) (adrg_dis_opt : List (String × List String))
    (all_opt_list : List String) (adrg_type_dict : List (String × String))
    (adrg_drg_name_sheet : List (String × List String))
    (mdc_sub_adrg : List (String × List String)) {g : String → Option String}
    (msub : String)
    (hsub : subOkb adrg_dis_opt adrg_type_dict adrg_drg_name_sheet mdc_sub_adrg msub = true)
    (pred : String)
    (hpred : pred = "KBBZ" ∨ candOkb adrg_dis_opt adrg_type_dict adrg_drg_name_sheet pred = true)
    (hg : ∀ p, (p = "KBBZ" ∨ candOkb adrg_dis_opt adrg_type_dict adrg_drg_name_sheet p = true) →
      ∃ r, g p = some r ∧
        (r = "KBBZ" ∨ candOkb adrg_dis_opt adrg_type_dict adrg_drg_name_sheet r = true)) :
    ∃ r, (do
        let lst ← mdc_sub_adrg.lookup msub
        let p ← tryAdrgs (process_adrg record adrg_dis_opt all_opt_list adrg_type_dict) pred lst
        g p) = some r ∧
      (r = "KBBZ" ∨ candOkb adrg_dis_opt adrg_type_dict adrg_drg_name_sheet r = true) := by
  unfold subOkb at hsub
  split at hsub
  · exact absurd hsub (by simp)
  · rename_i lst hlst
    obtain ⟨p, hp, hpor⟩ := tryAdrgs_total _ lst
      (fun a ha => process_adrg_total record adrg_dis_opt all_opt_list adrg_type_dict
        adrg_drg_name_sheet a (List.all_eq_true.mp hsub a ha)) pred
    simp only [Option.bind_eq_bind, hlst, Option.some_bind, hp]
    apply hg
    rcases hpor with h | h | h
    · exact h ▸ hpred
    · exact Or.inl h
    · exact Or.inr (List.all_eq_true.mp hsub p h)

/-- Totality of the category walk under the well-formedness facts. -/
theorem whichAdrgWalk_total (record : DrgCase) (adrg_dis_opt : List (String × List String))
    (all_opt_list : List String) (main_dis_sheet : List (String × List String))
    (adrg_type_dict : List (String × String)) (mdcz_dis_sheet : List (String × List String))
    (mdcy_dis_sheet : List String) (mdc_sub_adrg : List (String × List String))
    (adrg_drg_name_sheet : List (String × List String)) (l : List String)
    (hlk : main_dis_sheet.lookup record.main_dis = some l) (hne : l ≠ [])
    (hA : mdcaAdrgList.all (candOkb adrg_dis_opt adrg_type_dict adrg_drg_name_sheet) = true)
    (hZ : regionsOkb mdcz_dis_sheet = true)
    (hsubP : subOkb adrg_dis_opt adrg_type_dict adrg_drg_name_sheet mdc_sub_adrg "MDCP" = true)
    (hsubY : subOkb adrg_dis_opt adrg_type_dict adrg_drg_name_sheet mdc_sub_adrg "MDCY" = true)
    (hsubZ : subOkb adrg_dis_opt adrg_type_dict adrg_drg_name_sheet mdc_sub_adrg "MDCZ" = true)
    (mdcs : List String)
    (hms : ∀ m ∈ mdcs, m ∈ specialMdcs ∨
      subOkb adrg_dis_opt adrg_type_dict adrg_drg_name_sheet mdc_sub_adrg m = true) :
    ∀ pred, (pred = "KBBZ" ∨ candOkb adrg_dis_opt adrg_type_dict adrg_drg_name_sheet pred = true) →
      ∃ r, whichAdrgWalk record adrg_dis_opt all_opt_list main_dis_sheet adrg_type_dict
          mdcz_dis_sheet mdcy_dis_sheet mdc_sub_adrg pred mdcs = some r ∧
        (r = "KBBZ" ∨ candOkb adrg_dis_opt adrg_type_dict adrg_drg_name_sheet r = true) := by
  induction mdcs with
  | nil => exact fun pred hpred => ⟨pred, rfl, hpred⟩
  | cons m rest ih =>
      intro pred hpred
      have ihr := ih (fun x hx => hms x (List.mem_cons_of_mem m hx))
      simp only [whichAdrgWalk]
      by_cases h1 : m = "MDCA"
      · rw [if_pos h1]
        obtain ⟨p, hp, hpor⟩ := is_mdca_total record adrg_dis_opt all_opt_list adrg_type_dict
          adrg_drg_name_sheet hA
        simp only [Option.bind_eq_bind, hp, Option.some_bind]
        by_cases hpk : p = "KBBZ"
        · rw [if_neg (fun hc => hc hpk)]
          exact ihr p (Or.inl hpk)
        · rw [if_pos hpk]
          refine ⟨p, rfl, ?_⟩
          rcases hpor with h | h
          · exact absurd h hpk
          · exact Or.inr h
      · rw [if_neg h1]
        by_cases h2 : m = "MDCP"
        · rw [if_pos h2]
          split
          · exact bindSub_total record adrg_dis_opt all_opt_list adrg_type_dict
              adrg_drg_name_sheet mdc_sub_adrg "MDCP" hsubP pred hpred ihr
          · exact ihr pred hpred
        · rw [if_neg h2]
          by_cases h3 : m = "MDCY"
          · rw [if_pos h3]
            split
            · exact bindSub_total record adrg_dis_opt all_opt_list adrg_type_dict
                adrg_drg_name_sheet mdc_sub_adrg "MDCY" hsubY pred hpred ihr
            · exact ihr pred hpred
          · rw [if_neg h3]
            by_cases h4 : m = "MDCZ"
            · rw [if_pos h4]
              obtain ⟨z, hz⟩ := is_mdcz_total record adrg_dis_opt all_opt_list adrg_type_dict
                mdcz_dis_sheet hZ
              simp only [Option.bind_eq_bind, hz, Option.some_bind]
              by_cases hzz : z = "MDCZ"
              · subst hzz
                rw [if_pos rfl]
                exact bindSub_total record adrg_dis_opt all_opt_list adrg_type_dict
                  adrg_drg_name_sheet mdc_sub_adrg "MDCZ" hsubZ pred hpred ihr
              · rw [if_neg hzz]
                exact ihr pred hpred
            · rw [if_neg h4]
              by_cases h5 : m = "MDCN"
              · rw [if_pos h5]
                obtain ⟨mn, hmn, hne5⟩ := is_mdcn_total record main_dis_sheet l hlk hne
                simp only [Option.bind_eq_bind, hmn, Option.some_bind]
                rw [if_neg hne5]
                exact ihr pred hpred
              · rw [if_neg h5]
                by_cases h6 : m = "MDCM"
                · rw [if_pos h6]
                  obtain ⟨mn, hmn, hne6⟩ := is_mdcm_total record main_dis_sheet l hlk hne
                  simp only [Option.bind_eq_bind, hmn, Option.some_bind]
                  rw [if_neg hne6]
                  exact ihr pred hpred
                · rw [if_neg h6]
                  have hsub : subOkb adrg_dis_opt adrg_type_dict adrg_drg_name_sheet
                      mdc_sub_adrg m = true := by
                    rcases hms m (List.mem_cons_self m rest) with hsp | hs
                    · exfalso
                      simp only [specialMdcs, List.mem_cons, List.not_mem_nil, or_false] at hsp
                      rcases hsp with h | h | h | h | h | h <;> contradiction
                    · exact hs
                  exact bindSub_total record adrg_dis_opt all_opt_list adrg_type_dict
                    adrg_drg_name_sheet mdc_sub_adrg m hsub pred hpred ihr

/-- Totality of the QY reclassification for "KBBZ" or a three-character
ADRG name: the result is "KBBZ", the unchanged name, or a rewrite whose
second and third characters are "QY". -/
theorem qy_judge_total (record : DrgCase) (adrg_name : String) (all_opt_list : List String)
    (h : adrg_name = "KBBZ" ∨ adrg_name.length = 3) :
    ∃ q, qy_judge record adrg_name all_opt_list = some q ∧
      (q = "KBBZ" ∨ q = adrg_name ∨ rustSlice q 1 2 = some "QY") := by
  rcases h with hk | hlen
  · subst hk
    exact ⟨"KBBZ", rfl, Or.inl rfl⟩
  · have h3 : adrg_name.toList.length = 3 := hlen
    obtain ⟨c0, c1, c2, hl⟩ := List.length_eq_three.mp h3
    have hknot : adrg_name ≠ "KBBZ" := by
      intro he
      rw [he] at hlen
      exact absurd hlen (by decide)
    unfold qy_judge
    rw [if_neg hknot]
    by_cases hv : record.is_vaild_surgrey all_opt_list = true
    · rw [if_pos hv]
      have hs1 : rustSlice adrg_name 1 1 = some (String.mk [c1]) := by
        unfold rustSlice
        rw [if_pos (by omega)]
        rw [hl]
        simp
      simp only [Option.bind_eq_bind, hs1, Option.some_bind]
      split
      · have hs0 : rustSlice adrg_name 0 0 = some (String.mk [c0]) := by
          unfold rustSlice
          rw [if_pos (by omega)]
          rw [hl]
          simp
        simp only [hs0, Option.some_bind]
        refine ⟨String.mk [c0] ++ "QY", rfl, Or.inr (Or.inr ?_)⟩
        rfl
      · exact ⟨adrg_name, rfl, Or.inr (Or.inl rfl)⟩
    · rw [if_neg hv]
      exact ⟨adrg_name, rfl, Or.inr (Or.inl rfl)⟩

theorem excludeLoop_total (excl : String) (l : List (List String))
    (h : ∀ c ∈ l, 2 ≤ c.length) :
    ∀ init, ∃ lab, excludeLoop excl init l = some lab := by
  induction l with
  | nil => exact fun init => ⟨init, rfl⟩
  | cons c rest ih =>
      intro init
      have hc := h c (List.mem_cons_self c rest)
      have hrest := fun x hx => h x (List.mem_cons_of_mem c hx)
      have hg0 : c.get? 0 = some (c.getD 0 "") := get?_of_lt c 0 "" (by omega)
      have hg1 : c.get? 1 = some (c.getD 1 "") := get?_of_lt c 1 "" (by omega)
      simp only [excludeLoop, Option.bind_eq_bind, hg0, Option.some_bind]
      split
      · exact ih hrest init
      · simp only [hg1, Option.some_bind]
        split
        · exact ⟨"MCC", rfl⟩
        · exact ih hrest (c.getD 1 "")

theorem highLoop_total (excl : String) (l : List (List String))
    (h : ∀ c ∈ l, 2 ≤ c.length) :
    ∀ init, ∃ lab, highLoop excl init l = some lab := by
  induction l with
  | nil => exact fun init => ⟨init, rfl⟩
  | cons c rest ih =>
      intro init
      have hc := h c (List.mem_cons_self c rest)
      have hrest := fun x hx => h x (List.mem_cons_of_mem c hx)
      have hg0 : c.get? 0 = some (c.getD 0 "") := get?_of_lt c 0 "" (by omega)
      have hg1 : c.get? 1 = some (c.getD 1 "") := get?_of_lt c 1 "" (by omega)
      simp only [highLoop, Option.bind_eq_bind, hg0, Option.some_bind]
      split
      · exact ih hrest init
      · simp only [hg1, Option.some_bind]
        split
        · exact ⟨"MCC", rfl⟩
        · exact ih hrest (c.getD 0 "")

/-- Totality of the DRG refinement for an ADRG that is "KBBZ", already
QY-shaped, or has well-formed registered DRG codes. -/
theorem process_drg_total (record : DrgCase) (adrg_name : String)
    (ccmcc_sheet : List (String × List String)) (exclude_sheet : List (String × String))
    (adrg_drg_name_sheet : List (String × List String))
    (hccm : ccmcc_sheet.all (fun p => decide (2 ≤ p.2.length)) = true)
    (h : adrg_name = "KBBZ" ∨ rustSlice adrg_name 1 2 = some "QY" ∨
         (adrg_name.length = 3 ∧ drgOkb adrg_drg_name_sheet adrg_name = true)) :
    ∃ d, process_drg record adrg_name ccmcc_sheet exclude_sheet adrg_drg_name_sheet
      = some d := by
  have hlen : ∀ c ∈ record.other_dis.filterMap (fun x => ccmcc_sheet.lookup x),
      2 ≤ c.length := by
    intro c hcmem
    rw [List.mem_filterMap] at hcmem
    obtain ⟨x, hx, hlkc⟩ := hcmem
    have := List.all_eq_true.mp hccm (x, c) (lookup_mem ccmcc_sheet x c hlkc)
    exact of_decide_eq_true this
  rcases h with hk | hq | ⟨h3, hdrg⟩
  · subst hk
    exact ⟨"KBBZ", rfl⟩
  · have hknot : adrg_name ≠ "KBBZ" := by
      intro he
      rw [he] at hq
      exact absurd hq (by decide)
    unfold process_drg
    rw [if_neg hknot]
    simp only [Option.bind_eq_bind, hq, Option.some_bind]
    rw [if_true]
    exact ⟨adrg_name, rfl⟩
  · have hknot : adrg_name ≠ "KBBZ" := by
      intro he
      rw [he] at h3
      exact absurd h3 (by decide)
    have hsl : rustSlice adrg_name 1 2
        = some (String.mk ((adrg_name.toList.drop 1).take 2)) := by
      unfold rustSlice
      rw [if_pos (by omega)]
    unfold process_drg
    rw [if_neg hknot]
    simp only [Option.bind_eq_bind, hsl, Option.some_bind]
    by_cases hqy : String.mk ((adrg_name.toList.drop 1).take 2) = "QY"
    · rw [if_pos hqy]
      exact ⟨adrg_name, rfl⟩
    · rw [if_neg hqy]
      unfold drgOkb at hdrg
      split at hdrg
      · exact absurd hdrg (by simp)
      · rename_i codes hcodes
        unfold waitDictOkb at hdrg
        split at hdrg
        · exact absurd hdrg (by simp)
        · rename_i d hd
          simp only [hcodes, Option.some_bind, hd]
          by_cases hd1 : d.length = 1
          · rw [if_pos hd1]
            rw [if_pos hd1] at hdrg
            exact Option.isSome_iff_exists.mp hdrg
          · rw [if_neg hd1]
            rw [if_neg hd1] at hdrg
            by_cases hd2 : d.length = 2
            · rw [if_pos hd2]
              rw [if_pos hd2] at hdrg
              rw [Bool.and_eq_true] at hdrg
              obtain ⟨h5s, h13⟩ := hdrg
              by_cases hemp :
                  (record.other_dis.filterMap (fun x => ccmcc_sheet.lookup x)).isEmpty = true
              · rw [if_pos hemp]
                exact Option.isSome_iff_exists.mp h5s
              · rw [if_neg hemp]
                obtain ⟨lab, hlab⟩ := excludeLoop_total
                  ((exclude_sheet.lookup record.main_dis).getD "") _ hlen "exclude"
                simp only [Option.bind_eq_bind, hlab, Option.some_bind]
                by_cases hm : lab = "MCC"
                · rw [if_pos hm]
                  by_cases h1s : (d.lookup 1).isSome = true
                  · rw [if_pos h1s]
                    exact Option.isSome_iff_exists.mp h1s
                  · rw [if_neg h1s]
                    rw [Bool.or_eq_true] at h13
                    rcases h13 with hx | hx
                    · exact absurd hx h1s
                    · exact Option.isSome_iff_exists.mp hx
                · rw [if_neg hm]
                  by_cases hcc : lab = "CC"
                  · rw [if_pos hcc]
                    by_cases h1s : (d.lookup 1).isSome = true
                    · rw [if_pos h1s]
                      exact Option.isSome_iff_exists.mp h5s
                    · rw [if_neg h1s]
                      rw [Bool.or_eq_true] at h13
                      rcases h13 with hx | hx
                      · exact absurd hx h1s
                      · exact Option.isSome_iff_exists.mp hx
                  · rw [if_neg hcc]
                    exact Option.isSome_iff_exists.mp h5s
            · rw [if_neg hd2]
              rw [if_neg hd2] at hdrg
              simp only [Bool.and_eq_true] at hdrg
              obtain ⟨⟨h1s, h3s⟩, h5s⟩ := hdrg
              obtain ⟨lab, hlab⟩ := highLoop_total
                ((exclude_sheet.lookup record.main_dis).getD "") _ hlen "exclude"
              simp only [Option.bind_eq_bind, hlab, Option.some_bind]
              by_cases hm : lab = "MCC"
              · rw [if_pos hm]
                exact Option.isSome_iff_exists.mp h1s
              · rw [if_neg hm]
                by_cases hcc : lab = "CC"
                · rw [if_pos hcc]
                  by_cases hd3 : d.length = 3
                  · rw [if_pos hd3]
                    exact Option.isSome_iff_exists.mp h3s
                  · rw [if_neg hd3]
                    exact Option.isSome_iff_exists.mp h1s
                · rw [if_neg hcc]
                  exact Option.isSome_iff_exists.mp h5s

/-- C4: for every case and every self-consistent Rule Tables bundle (in
the sense of `wellFormedb`), the composed grouping is total: the ADRG
resolver returns a code string and the DRG refiner applied to that result
returns a code string — no map index, string slice or unwrap inside
`which_adrg`, `process_adrg`, the rule-type predicates or `process_drg`
panics (`none` models every panic in this embedding). -/
theorem grouping_total (record : DrgCase) (adrg_dis_opt : List (String × List String))
    (all_opt_list all_dis_list : List String)
    (main_dis_sheet : List (String × List String)) (adrg_type_dict : List (String × String))
    (mdcz_dis_sheet : List (String × List String)) (mdcy_dis_sheet : List String)
    (mdc_sub_adrg : List (String × List String)) (ccmcc_sheet : List (String × List String))
    (exclude_sheet : List (String × String)) (adrg_drg_name_sheet : List (String × List String))
    (hwf : wellFormedb record adrg_dis_opt main_dis_sheet adrg_type_dict mdcz_dis_sheet
      mdc_sub_adrg ccmcc_sheet adrg_drg_name_sheet = true) :
    ∃ a dcode,
      which_adrg record adrg_dis_opt all_opt_list all_dis_list main_dis_sheet adrg_type_dict
        mdcz_dis_sheet mdcy_dis_sheet mdc_sub_adrg = some a ∧
      process_drg record a ccmcc_sheet exclude_sheet adrg_drg_name_sheet = some dcode := by
  by_cases hnm : record.no_main_diagnosis = true
  · refine ⟨"KBBZ", "KBBZ", ?_, ?_⟩
    · unfold which_adrg
      rw [if_pos hnm]
    · unfold process_drg
      rw [if_pos rfl]
  · unfold wellFormedb at hwf
    rw [Bool.or_eq_true] at hwf
    rcases hwf with h | hwf
    · exact absurd h hnm
    · simp only [Bool.and_eq_true] at hwf
      obtain ⟨⟨⟨⟨⟨⟨⟨⟨hsome, hnemp⟩, hA⟩, hZ⟩, hP⟩, hY⟩, hZ2⟩, hdecl⟩, hccm⟩ := hwf
      obtain ⟨l, hlk⟩ := Option.isSome_iff_exists.mp hsome
      rw [hlk] at hnemp hdecl
      simp only [Option.getD_some] at hnemp hdecl
      have hne : l ≠ [] := by
        intro he
        subst he
        simp at hnemp
      have hms : ∀ m ∈ preMdc ++ l, m ∈ specialMdcs ∨
          subOkb adrg_dis_opt adrg_type_dict adrg_drg_name_sheet mdc_sub_adrg m = true := by
        intro m hm
        rw [List.mem_append] at hm
        rcases hm with hm | hm
        · refine Or.inl ?_
          simp only [preMdc, List.mem_cons, List.not_mem_nil, or_false] at hm
          rcases hm with h | h | h | h <;> subst h <;> decide
        · have hx := List.all_eq_true.mp hdecl m hm
          rw [Bool.or_eq_true] at hx
          rcases hx with hc | hs
          · exact Or.inl (by simpa using hc)
          · exact Or.inr hs
      obtain ⟨r, hr, hror⟩ := whichAdrgWalk_total record adrg_dis_opt all_opt_list
        main_dis_sheet adrg_type_dict mdcz_dis_sheet mdcy_dis_sheet mdc_sub_adrg
        adrg_drg_name_sheet l hlk hne hA hZ hP hY hZ2 (preMdc ++ l) hms "KBBZ" (Or.inl rfl)
      have hq3 : r = "KBBZ" ∨ r.length = 3 := by
        rcases hror with h | h
        · exact Or.inl h
        · refine Or.inr ?_
          simp only [candOkb, Bool.and_eq_true, beq_iff_eq] at h
          exact h.1.1
      obtain ⟨q, hqe, hqor⟩ := qy_judge_total record r all_opt_list hq3
      have hdisj : q = "KBBZ" ∨ rustSlice q 1 2 = some "QY" ∨
          (q.length = 3 ∧ drgOkb adrg_drg_name_sheet q = true) := by
        rcases hqor with h | h | h
        · exact Or.inl h
        · subst h
          rcases hror with h2 | h2
          · exact Or.inl h2
          · refine Or.inr (Or.inr ?_)
            simp only [candOkb, Bool.and_eq_true, beq_iff_eq] at h2
            exact ⟨h2.1.1, h2.2⟩
        · exact Or.inr (Or.inl h)
      obtain ⟨dcode, hdc⟩ := process_drg_total record q ccmcc_sheet exclude_sheet
        adrg_drg_name_sheet hccm hdisj
      refine ⟨q, dcode, ?_, hdc⟩
      unfold which_adrg
      rw [if_neg hnm]
      simp only [Option.bind_eq_bind, hlk, Option.some_bind, hr, hqe]

def wfCase : DrgCase := DrgCase.new "c4" "D1" "" [] [] 1 (Rat.mk' 20 1) 0

def wfTypeDict : List (String × String) :=
  [("AA1", "is_contain_main_dis"), ("AA2", "is_contain_main_dis"),
   ("AB1", "is_contain_main_dis"), ("AC1", "is_contain_main_dis"),
   ("AD1", "is_contain_main_dis"), ("AE1", "is_contain_main_dis"),
   ("AF1", "is_contain_main_dis"), ("AG1", "is_contain_main_dis"),
   ("AG2", "is_contain_main_dis"), ("AG3", "is_contain_main_dis"),
   ("AH1", "is_contain_main_dis"), ("AH2", "is_contain_main_dis"),
   ("GR1", "is_contain_main_dis")]

def wfDisOpt : List (String × List String) :=
  [("AA1", []), ("AA2", []), ("AB1", []), ("AC1", []), ("AD1", []), ("AE1", []),
   ("AF1", []), ("AG1", []), ("AG2", []), ("AG3", []), ("AH1", []), ("AH2", []),
   ("GR1", ["D1"])]

def wfDrgSheet : List (String × List String) :=
  [("AA1", ["AA19"]), ("AA2", ["AA29"]), ("AB1", ["AB19"]), ("AC1", ["AC19"]),
   ("AD1", ["AD19"]), ("AE1", ["AE19"]), ("AF1", ["AF19"]), ("AG1", ["AG19"]),
   ("AG2", ["AG29"]), ("AG3", ["AG39"]), ("AH1", ["AH19"]), ("AH2", ["AH29"]),
   ("GR1", ["GR19"])]

def wfMainDis : List (String × List String) := [("D1", ["MDCG"])]

def wfSubAdrg : List (String × List String) :=
  [("MDCP", []), ("MDCY", []), ("MDCZ", []), ("MDCG", ["GR1"])]

/-- Witness for C4: a concrete self-consistent bundle and case on which
both stages return a code. -/
theorem grouping_total_witness :
    ∃ a dcode,
      which_adrg wfCase wfDisOpt [] [] wfMainDis wfTypeDict mdczEmptySheet []
        wfSubAdrg = some a ∧
      process_drg wfCase a [] [] wfDrgSheet = some dcode :=
  grouping_total wfCase wfDisOpt [] [] wfMainDis wfTypeDict mdczEmptySheet [] wfSubAdrg
    [] [] wfDrgSheet (by decide)
